import Mathlib

set_option maxRecDepth 20000
set_option maxHeartbeats 1000000

/-
Verification development for the Yul inline-assembly semantic analyzer
(libyul/AsmAnalysis.cpp).  The analyzer walks a parsed AST, resolves names
against a lexical scope chain, checks types, tracks an abstract stack height,
and records per-node stack heights.  External collaborators (the dialect, the
error reporter, the resolver callback, the scope filler and scope lookup) are
modelled by explicit data; components whose code is not part of the analyzed
source are marked as modelled from the spec in their doc comments.
-/

namespace YulAnalysis

/-- Kind of a literal AST node (number, string or boolean). -/
inductive LiteralKind where
  | number
  | str
  | boolean
deriving DecidableEq

/-- Literal AST node: kind, raw value, declared type, source location. -/
structure Literal where
  kind : LiteralKind
  value : String
  type : String
  loc : Nat
deriving DecidableEq

/-- Identifier AST node: name and source location. -/
structure Identifier where
  name : String
  loc : Nat
deriving DecidableEq

/-- Typed name, used for declared variables, parameters and returns. -/
structure TypedName where
  name : String
  type : String
  loc : Nat
deriving DecidableEq

mutual
/-- Expression AST: literal, identifier, or function call. -/
inductive Expression where
  | lit (l : Literal)
  | ident (i : Identifier)
  | call (fname : Identifier) (args : List Expression) (loc : Nat)

/-- Statement AST, mirroring the node kinds handled by the analyzer. -/
inductive Statement where
  | exprStmt (e : Expression) (loc : Nat)
  | assign (targets : List Identifier) (value : Expression) (loc : Nat)
  | varDecl (vars : List TypedName) (value : Option Expression) (loc : Nat)
  | funDef (fname : String) (params : List TypedName) (rets : List TypedName) (body : Block) (loc : Nat)
  | ifStmt (cond : Expression) (body : Block) (loc : Nat)
  | switchStmt (scrutinee : Expression) (cases : List SwitchCase) (loc : Nat)
  | forLoop (pre : Block) (cond : Expression) (post : Block) (body : Block) (loc : Nat)
  | blockStmt (b : Block)
  | breakStmt (loc : Nat)
  | continueStmt (loc : Nat)
  | leaveStmt (loc : Nat)

/-- Switch case: optional literal value (none marks the default case) and body. -/
inductive SwitchCase where
  | mk (value : Option Literal) (body : Block) (loc : Nat)

/-- Block AST node: ordered statement list and source location. -/
inductive Block where
  | mk (stmts : List Statement) (loc : Nat)
end

/-- Source location of an expression. -/
def Expression.loc : Expression → Nat
  | .lit l => l.loc
  | .ident i => i.loc
  | .call _ _ loc => loc

/-- Statements of a block. -/
def Block.stmts : Block → List Statement
  | .mk s _ => s

/-- Source location of a block. -/
def Block.loc : Block → Nat
  | .mk _ l => l

/-- Optional case value of a switch case. -/
def SwitchCase.value : SwitchCase → Option Literal
  | .mk v _ _ => v

/-- Body block of a switch case. -/
def SwitchCase.body : SwitchCase → Block
  | .mk _ b _ => b

/-- Source location of a switch case. -/
def SwitchCase.loc : SwitchCase → Nat
  | .mk _ _ l => l

/-- Diagnostic kind of the error reporter (type, declaration or syntax error). -/
inductive ErrKind where
  | typeErr
  | declarationErr
  | syntaxErr
deriving DecidableEq

/-- Diagnostic: kind, source location and message. -/
structure Diag where
  kind : ErrKind
  loc : Nat
  msg : String
deriving DecidableEq

/-- Entry of a scope: a variable binding with its type, or a function binding
with parameter and return type vectors. -/
inductive ScopeIdentifier where
  | svar (type : String)
  | sfun (argTypes : List String) (retTypes : List String)
deriving DecidableEq

/-- Modelled from the spec: one lexical scope of the scope tree built by the
scope filler (AsmScopeFiller and AsmScope are not part of the analyzed source).
The identity `sid` stands for the address identity of the C++ scope object; it
is the source location of the block the scope belongs to, which is unique in a
real AST.  `functionScope` marks virtual function scopes. -/
structure ScopeFrame where
  sid : Nat
  idents : List (String × ScopeIdentifier)
  functionScope : Bool
deriving DecidableEq

/-- Machine instructions relevant to the legacy-instruction warnings. -/
inductive Instruction where
  | RETURNDATACOPY
  | RETURNDATASIZE
  | STATICCALL
  | SHL
  | SHR
  | SAR
  | CREATE2
  | EXTCODEHASH
  | CHAINID
  | SELFBALANCE
  | JUMP
  | JUMPI
  | JUMPDEST
deriving DecidableEq

/-- Modelled from the spec: the lower-case display name of an instruction as
produced by instructionInfo together with boost to_lower_copy. -/
def instructionLowerName : Instruction → String
  | .RETURNDATACOPY => "returndatacopy"
  | .RETURNDATASIZE => "returndatasize"
  | .STATICCALL => "staticcall"
  | .SHL => "shl"
  | .SHR => "shr"
  | .SAR => "sar"
  | .CREATE2 => "create2"
  | .EXTCODEHASH => "extcodehash"
  | .CHAINID => "chainid"
  | .SELFBALANCE => "selfbalance"
  | .JUMP => "jump"
  | .JUMPI => "jumpi"
  | .JUMPDEST => "jumpdest"

/-- Target machine feature flags of an EVM version object. -/
structure EVMVersion where
  supportsReturndata : Bool
  hasStaticCall : Bool
  hasBitwiseShifting : Bool
  hasCreate2 : Bool
  hasExtCodeHash : Bool
  hasChainID : Bool
  hasSelfBalance : Bool
  name : String
deriving DecidableEq

/-- Builtin function descriptor of the dialect contract. -/
structure BuiltinFunction where
  parameters : List String
  returns : List String
  literalArguments : Bool
deriving DecidableEq

/-- Dialect contract: default type, boolean type, set of valid types, builtin
lookup and literal validity predicate. -/
structure Dialect where
  defaultType : String
  boolType : String
  types : List String
  builtin : String → Option BuiltinFunction
  validTypeForLiteral : LiteralKind → String → String → Bool

/-- Context passed to the external resolver callback. -/
inductive IdentifierContext where
  | lvalue
  | rvalue
  | variableDeclaration
deriving DecidableEq

/-- Analyzer construction parameters: dialect, optional resolver callback
(returning an optional stack size, none standing for the unknown sentinel,
together with the diagnostics the callback records itself), known data names,
target machine version, and the builtin-to-instruction lookup of the reference
EVM dialect used by the legacy-instruction warnings. -/
structure Config where
  dialect : Dialect
  resolver : Option (Identifier → IdentifierContext → Bool → Option Nat × List Diag)
  dataNames : List String
  evmVersion : EVMVersion
  refInstruction : String → Option Instruction

/-- Mutable analyzer state: reported errors, abstract stack height, type vector
of the current expression, active-variable set (scope identity and name),
current scope chain (innermost first), current for-loop marker, recorded
stack-height entries in recording order, and a sticky flag modelling an
assertion failure or undefined behavior (after which the C++ analyzer would
have aborted). -/
structure St where
  errors : List Diag
  stackHeight : Int
  typeOfCurrentExpression : List String
  activeVariables : List (Nat × String)
  scopeChain : List ScopeFrame
  currentForLoop : Option Nat
  stackHeightInfo : List (Nat × Int)
  crashed : Bool
deriving DecidableEq

/-- Appends a diagnostic to the error reporter. -/
def reportError (st : St) (k : ErrKind) (loc : Nat) (msg : String) : St :=
  { st with errors := st.errors ++ [⟨k, loc, msg⟩] }

/-- Marks the state as crashed (assertion failure or undefined behavior). -/
def setCrashed (st : St) : St :=
  { st with crashed := true }

/-- Records the current stack height for the node at the given location. -/
def recordHeight (st : St) (loc : Nat) : St :=
  { st with stackHeightInfo := st.stackHeightInfo ++ [(loc, st.stackHeight)] }

/-- Inserts a variable binding into the active-variable set. -/
def insertActive (st : St) (key : Nat × String) : St :=
  if key ∈ st.activeVariables then st
  else { st with activeVariables := st.activeVariables ++ [key] }

/-- First binding of a name in the identifier list of one scope. -/
def assocFind : List (String × ScopeIdentifier) → String → Option ScopeIdentifier
  | [], _ => none
  | (k, v) :: rest, n => if k = n then some v else assocFind rest n

/-- Modelled from the spec: Scope lookup along the enclosing-scope chain
(AsmScope is not part of the analyzed source).  Variables found beyond a
function boundary are invisible. -/
def lookupGo : Bool → List ScopeFrame → String → Option (Nat × ScopeIdentifier)
  | _, [], _ => none
  | crossed, f :: rest, n =>
    match assocFind f.idents n with
    | some (.svar t) => if crossed then none else some (f.sid, .svar t)
    | some (.sfun a r) => some (f.sid, .sfun a r)
    | none => lookupGo (crossed || f.functionScope) rest n

/-- Whether the current scope lies inside a function body. -/
def insideFunction (chain : List ScopeFrame) : Bool :=
  chain.any (fun f => f.functionScope)

/-- Modelled from the spec: identifiers the scope filler registers in the scope
of a block, one variable binding per declared variable and one function binding
per function definition (AsmScopeFiller is not part of the analyzed source). -/
def declaredIdents : List Statement → List (String × ScopeIdentifier)
  | [] => []
  | .varDecl vars _ _ :: rest =>
      vars.map (fun v => (v.name, ScopeIdentifier.svar v.type)) ++ declaredIdents rest
  | .funDef n ps rs _ _ :: rest =>
      (n, ScopeIdentifier.sfun (ps.map (fun p => p.type)) (rs.map (fun r => r.type)))
        :: declaredIdents rest
  | _ :: rest => declaredIdents rest

/-- Scope of a block, as the filler would have built it. -/
def scopeOf (b : Block) : ScopeFrame :=
  ⟨b.loc, declaredIdents b.stmts, false⟩

/-- Number of variable bindings in a scope. -/
def numberOfVariables (f : ScopeFrame) : Int :=
  ((f.idents.filter (fun p => match p.2 with
    | .svar _ => true
    | .sfun _ _ => false)).length : Int)

/-- Modelled from the spec: the virtual block scope of a function definition,
holding its parameters and returns and marking a function boundary. -/
def virtualScopeOf (params rets : List TypedName) (loc : Nat) : ScopeFrame :=
  ⟨loc, (params ++ rets).map (fun v => (v.name, ScopeIdentifier.svar v.type)), true⟩

/-- Value of a decimal digit character. -/
def decDigitsVal : List Char → Nat → Nat
  | [], acc => acc
  | c :: rest, acc => decDigitsVal rest (acc * 10 + (c.toNat - 48))

/-- Value of a hexadecimal digit character. -/
def hexDigitVal (c : Char) : Nat :=
  if 48 ≤ c.toNat ∧ c.toNat ≤ 57 then c.toNat - 48
  else if 97 ≤ c.toNat ∧ c.toNat ≤ 102 then c.toNat - 87
  else if 65 ≤ c.toNat ∧ c.toNat ≤ 70 then c.toNat - 55
  else 0

/-- Folds hexadecimal digits into a number. -/
def hexDigitsVal : List Char → Nat → Nat
  | [], acc => acc
  | c :: rest, acc => hexDigitsVal rest (acc * 16 + hexDigitVal c)

/-- Modelled from the spec: bigint parsing of a numeric literal string, decimal
or 0x-prefixed hexadecimal (the bigint machinery is not part of the analyzed
source; the parser guarantees well-formed numerals). -/
def parseNumber (s : String) : Nat :=
  match s.toList with
  | '0' :: 'x' :: rest => hexDigitsVal rest 0
  | l => decDigitsVal l 0

/-- Largest unsigned 256-bit value. -/
def u256Max : Nat := 2 ^ 256 - 1

/-- Folds string bytes into a number. -/
def strWordVal : List Char → Nat → Nat
  | [], acc => acc
  | c :: rest, acc => strWordVal rest (acc * 256 + c.toNat % 256)

/-- Modelled from the spec: the numeric value of a literal (valueOfLiteral of
libyul/Utilities is not part of the analyzed source): numbers parse as bigint,
booleans map to one and zero, strings are left-aligned 32-byte words. -/
def valueOfLiteral (l : Literal) : Nat :=
  match l.kind with
  | .number => parseNumber l.value
  | .boolean => if l.value = "true" then 1 else 0
  | .str =>
    let chars := l.value.toList.take 32
    strWordVal chars 0 * 256 ^ (32 - chars.length)

/-- Checks that a type is valid in the dialect, reporting a type error if not. -/
def expectValidType (cfg : Config) (ty : String) (loc : Nat) (st : St) : St :=
  if cfg.dialect.types.contains ty then st
  else reportError st .typeErr loc
    ("\"" ++ ty ++ "\" is not a valid type (user defined types are not yet supported).")

/-- Checks that the given type equals the expected type, reporting a type error
on mismatch. -/
def expectType (expected given : String) (loc : Nat) (st : St) : Bool × St :=
  if expected = given then (true, st)
  else (false, reportError st .typeErr loc
    ("Expected a value of type \"" ++ expected ++ "\" but got \"" ++ given))

/-- Checks that the stack height grew by exactly the expected deposit since the
old height, reporting a type error on mismatch. -/
def expectDeposit (deposit oldHeight : Int) (loc : Nat) (st : St) : Bool × St :=
  if st.stackHeight - oldHeight ≠ deposit then
    (false, reportError st .typeErr loc
      ("Expected expression to return one item to the stack, but did return "
        ++ toString (st.stackHeight - oldHeight) ++ " items."))
  else (true, st)

/-- First entry of the current-expression type vector; reading an empty vector
is out-of-bounds in the C++ code and marks the state crashed. -/
def typeAt0 (cfg : Config) (st : St) : String × St :=
  match st.typeOfCurrentExpression with
  | [] => (cfg.dialect.defaultType, setCrashed st)
  | t :: _ => (t, st)

/-- Handler for a literal node.  On an oversized string or number it reports a
type error and returns false before recording a stack height. -/
def analyzeLiteral (cfg : Config) (l : Literal) (st0 : St) : Bool × St :=
  let st := expectValidType cfg l.type l.loc st0
  let st := { st with stackHeight := st.stackHeight + 1 }
  if l.kind = .str ∧ l.value.toList.length > 32 then
    (false, reportError st .typeErr l.loc
      ("String literal too long (" ++ toString l.value.toList.length ++ " > 32)"))
  else if l.kind = .number ∧ parseNumber l.value > u256Max then
    (false, reportError st .typeErr l.loc "Number literal too large (> 256 bits)")
  else
    let st := if l.kind = .boolean ∧ ¬(l.value = "true" ∨ l.value = "false")
      then setCrashed st else st
    let st := if cfg.dialect.validTypeForLiteral l.kind l.value l.type then st
      else reportError st .typeErr l.loc
        ("Invalid type \"" ++ l.type ++ "\" for literal \"" ++ l.value ++ "\".")
    let st := recordHeight st l.loc
    (true, { st with typeOfCurrentExpression := [l.type] })

/-- Handler for an identifier in expression position. -/
def analyzeIdentifier (cfg : Config) (i : Identifier) (st0 : St) : Bool × St :=
  let st := if i.name = "" then setCrashed st0 else st0
  let numErrorsBefore := st.errors.length
  let st := { st with typeOfCurrentExpression := [cfg.dialect.defaultType] }
  match lookupGo false st.scopeChain i.name with
  | some (sid, .svar t) =>
    let r : Bool × St :=
      if (sid, i.name) ∈ st.activeVariables then (true, st)
      else (false, reportError st .declarationErr i.loc
        ("Variable " ++ i.name ++ " used before it was declared."))
    let st := { r.2 with typeOfCurrentExpression := [t], stackHeight := r.2.stackHeight + 1 }
    (r.1, recordHeight st i.loc)
  | some (_, .sfun _ _) =>
    let st := reportError st .typeErr i.loc
      ("Function " ++ i.name ++ " used without being called.")
    (false, recordHeight st i.loc)
  | none =>
    let rr : Option Nat × St :=
      match cfg.resolver with
      | some r =>
        let s := r i .rvalue (insideFunction st.scopeChain)
        (s.1, { st with errors := st.errors ++ s.2 })
      | none => (none, st)
    match rr.1 with
    | none =>
      let st := if rr.2.errors.length = numErrorsBefore
        then reportError rr.2 .declarationErr i.loc "Identifier not found."
        else rr.2
      let st := { st with stackHeight := st.stackHeight + 1 }
      (false, recordHeight st i.loc)
    | some k =>
      let st := { rr.2 with stackHeight := rr.2.stackHeight + (k : Int) }
      (true, recordHeight st i.loc)

/-- Assignment-target check: resolves the target, checks it is an active
variable of size one, decrements the stack height, and checks the types. -/
def checkAssignment (cfg : Config) (v : Identifier) (valueType : String) (st0 : St) : Bool × St :=
  let st := if v.name = "" then setCrashed st0 else st0
  let numErrorsBefore := st.errors.length
  let r : Option Nat × String × Bool × St :=
    match lookupGo false st.scopeChain v.name with
    | some (sid, id) =>
      match id with
      | .sfun _ _ =>
        (some 1, cfg.dialect.defaultType, false,
          reportError st .typeErr v.loc "Assignment requires variable.")
      | .svar t =>
        if (sid, v.name) ∈ st.activeVariables then (some 1, t, true, st)
        else (some 1, cfg.dialect.defaultType, false,
          reportError st .declarationErr v.loc
            ("Variable " ++ v.name ++ " used before it was declared."))
    | none =>
      match cfg.resolver with
      | some res =>
        let s := res v .lvalue (insideFunction st.scopeChain)
        (s.1, cfg.dialect.defaultType, true, { st with errors := st.errors ++ s.2 })
      | none => (none, cfg.dialect.defaultType, true, st)
  let variableSize := r.1
  let variableType := r.2.1
  let r2 : Bool × St :=
    match variableSize with
    | none =>
      (false, if r.2.2.2.errors.length = numErrorsBefore
        then reportError r.2.2.2 .declarationErr v.loc
          "Variable not found or variable not lvalue."
        else r.2.2.2)
    | some _ => (r.2.2.1, r.2.2.2)
  let st := { r2.2 with stackHeight := r2.2.stackHeight - 1 }
  let r3 : Bool × St :=
    match variableSize with
    | some n =>
      if n ≠ 1 then
        (false, reportError st .typeErr v.loc
          ("Variable size (" ++ toString n ++ ") and value size (1) do not match."))
      else (r2.1, st)
    | none => (r2.1, st)
  if r3.1 ∧ variableType ≠ valueType then
    (false, reportError r3.2 .typeErr v.loc
      ("Assigning a value of type \"" ++ valueType ++ "\" to a variable of type \""
        ++ variableType ++ "\"."))
  else (r3.1, r3.2)

/-- Reports a version-guard type error for an instruction. -/
def errorForVM (cfg : Config) (instr : Instruction) (loc : Nat) (vmKindMessage : String) (st : St) : St :=
  reportError st .typeErr loc
    ("The \"" ++ instructionLowerName instr ++ "\" instruction is " ++ vmKindMessage
      ++ " VMs " ++ " (you are currently compiling for \"" ++ cfg.evmVersion.name ++ "\")." )

/-- Message of the jump-instruction diagnostic. -/
def jumpDisallowedMsg : String :=
  "Jump instructions and labels are low-level EVM features that can lead to incorrect stack access. Because of that they are disallowed in strict assembly. Use functions, \"switch\", \"if\" or \"for\" statements instead."

/-- Legacy-instruction warnings on a machine instruction: version-dependent
guards for return-data, shifting, Constantinople and Istanbul features, and the
unconditional jump prohibition.  Returns true iff a diagnostic fired.  The two
feature-coupling assertions of the C++ code are modelled by the crash flag. -/
def warnOnInstructions (cfg : Config) (instr : Instruction) (loc : Nat) (st0 : St) : Bool × St :=
  let st := if cfg.evmVersion.supportsReturndata = cfg.evmVersion.hasStaticCall
    then st0 else setCrashed st0
  let st := if cfg.evmVersion.hasBitwiseShifting = cfg.evmVersion.hasCreate2
    then st else setCrashed st
  if (instr = .RETURNDATACOPY ∨ instr = .RETURNDATASIZE) ∧ ¬cfg.evmVersion.supportsReturndata then
    (true, errorForVM cfg instr loc "only available for Byzantium-compatible" st)
  else if instr = .STATICCALL ∧ ¬cfg.evmVersion.hasStaticCall then
    (true, errorForVM cfg instr loc "only available for Byzantium-compatible" st)
  else if (instr = .SHL ∨ instr = .SHR ∨ instr = .SAR) ∧ ¬cfg.evmVersion.hasBitwiseShifting then
    (true, errorForVM cfg instr loc "only available for Constantinople-compatible" st)
  else if instr = .CREATE2 ∧ ¬cfg.evmVersion.hasCreate2 then
    (true, errorForVM cfg instr loc "only available for Constantinople-compatible" st)
  else if instr = .EXTCODEHASH ∧ ¬cfg.evmVersion.hasExtCodeHash then
    (true, errorForVM cfg instr loc "only available for Constantinople-compatible" st)
  else if instr = .CHAINID ∧ ¬cfg.evmVersion.hasChainID then
    (true, errorForVM cfg instr loc "only available for Istanbul-compatible" st)
  else if instr = .SELFBALANCE ∧ ¬cfg.evmVersion.hasSelfBalance then
    (true, errorForVM cfg instr loc "only available for Istanbul-compatible" st)
  else if instr = .JUMP ∨ instr = .JUMPI ∨ instr = .JUMPDEST then
    (true, reportError st .syntaxErr loc jumpDisallowedMsg)
  else (false, st)

/-- Legacy-instruction warnings by callee name: looks the name up in the
reference EVM dialect and dispatches on the mapped instruction. -/
def warnOnInstructionsByName (cfg : Config) (instructionIdentifier : String) (loc : Nat) (st : St) : Bool × St :=
  match cfg.refInstruction instructionIdentifier with
  | some i => warnOnInstructions cfg i loc st
  | none => (false, st)

/-- Callee resolution of a function call: dialect builtin first, then the scope
chain (a variable binding is a type error, a function binding supplies the
signature), and finally the legacy-instruction warnings, with the generic
function-not-found error suppressed when a warning fired.  Returns the optional
signature (parameter and return types), the literal-arguments flag, the success
flag so far, and the state. -/
def resolveCallee (cfg : Config) (fname : Identifier) (st : St) :
    Option (List String × List String) × Bool × Bool × St :=
  match cfg.dialect.builtin fname.name with
  | some f => (some (f.parameters, f.returns), f.literalArguments, true, st)
  | none =>
    match lookupGo false st.scopeChain fname.name with
    | some (_, .svar _) =>
      (none, false, false,
        reportError st .typeErr fname.loc "Attempt to call variable instead of function.")
    | some (_, .sfun a r) => (some (a, r), false, true, st)
    | none =>
      let w := warnOnInstructionsByName cfg fname.name fname.loc st
      let st := if w.1 then w.2
        else reportError w.2 .declarationErr fname.loc "Function not found."
      (none, false, false, st)

/-- Tail of the function-call handler: adjusts the stack height by returns
minus arguments (guarding a missing return-type vector), records the height,
and sets the current-expression type vector, on failure to a vector of
dialect-default types of the length of the return-type vector.  The read of the
return-type vector in the failure branch is unguarded in the C++ code; a
missing vector there is a null dereference, modelled by the crash flag. -/
def funCallFinish (cfg : Config) (returnTypes : Option (List String)) (success : Bool)
    (numArguments : Nat) (loc : Nat) (st0 : St) : Bool × St :=
  let st := { st0 with stackHeight := st0.stackHeight
    + ((returnTypes.map (fun ts => (ts.length : Int))).getD 0) - (numArguments : Int) }
  let st := recordHeight st loc
  if success then
    match returnTypes with
    | some ts => (true, { st with typeOfCurrentExpression := ts })
    | none => (true, setCrashed st)
  else
    match returnTypes with
    | some ts =>
      (false, { st with typeOfCurrentExpression := List.replicate ts.length cfg.dialect.defaultType })
    | none => (false, setCrashed st)

/-- Pairwise check of declared parameter types against the collected argument
types, reporting a type error at the corresponding argument location on each
mismatch.  Ragged lists violate an assertion of the C++ code. -/
def checkParamTypes : List String → List String → List Nat → St → Bool × St
  | [], _, _, st => (true, st)
  | _ :: _, [], _, st => (true, setCrashed st)
  | _ :: _, _ :: _, [], st => (true, setCrashed st)
  | p :: ps, a :: ats, loc :: locs, st =>
    let r := expectType p a loc st
    let rr := checkParamTypes ps ats locs r.2
    (r.1 && rr.1, rr.2)

/-- Literal-arguments check for one call argument of a builtin requiring
direct literals naming known data objects. -/
def checkLiteralArgument (cfg : Config) (fnameLoc : Nat) (arg : Expression) (st : St) : St :=
  match arg with
  | .lit l =>
    if cfg.dataNames.contains l.value then st
    else reportError st .typeErr fnameLoc ("Unknown data object \"" ++ l.value ++ "\".")
  | _ => reportError st .typeErr fnameLoc "Function expects direct literals as arguments."

/-- Notifies the resolver of declared variables so it can report shadowing;
the returned size is discarded and only the recorded diagnostics are kept. -/
def notifyResolverDecls (r : Identifier → IdentifierContext → Bool → Option Nat × List Diag) :
    List TypedName → Bool → St → St
  | [], _, st => st
  | v :: rest, insideFn, st =>
    let s := r ⟨v.name, v.loc⟩ .variableDeclaration insideFn
    notifyResolverDecls r rest insideFn { st with errors := st.errors ++ s.2 }

/-- One step of the variable-declaration tail for a single declared variable:
validates the declared type, checks it against the produced type, and marks the
variable active in the current scope (a variable missing from the current scope
violates the lookup assertion of the C++ code).  The flag is false exactly on a
type mismatch. -/
def declareVariableStep (cfg : Config) (v : TypedName) (givenType : String) (s : St) : Bool × St :=
  let st := expectValidType cfg v.type v.loc s
  let r : Bool × St :=
    if v.type ≠ givenType then
      (false, reportError st .typeErr v.loc
        ("Assigning value of type \"" ++ givenType ++ "\" to variable of type \""
          ++ v.type ++ "."))
    else (true, st)
  let st :=
    match r.2.scopeChain with
    | [] => setCrashed r.2
    | f :: _ =>
      match assocFind f.idents v.name with
      | some (.svar _) => insertActive r.2 (f.sid, v.name)
      | _ => setCrashed r.2
  (r.1, st)

/-- Per-variable tail of the variable-declaration handler: validates each
declared type against the corresponding produced type and marks the variable
active in the current scope. -/
def declareVariables (cfg : Config) : List TypedName → List String → Bool → St → Bool × St
  | [], _, success, st => (success, st)
  | v :: rest, tys, success, st =>
    let givenType := match tys with
      | [] => cfg.dialect.defaultType
      | t :: _ => t
    let r := declareVariableStep cfg v givenType st
    declareVariables cfg rest tys.tail (success && r.1) r.2

/-- Per-target tail of the assignment handler: checks each target with the
corresponding produced type (dialect default when the vector is shorter). -/
def assignTargets (cfg : Config) : List Identifier → List String → Bool → St → Bool × St
  | [], _, success, st => (success, st)
  | v :: rest, tys, success, st =>
    let givenType := match tys with
      | [] => cfg.dialect.defaultType
      | t :: _ => t
    let r := checkAssignment cfg v givenType st
    assignTargets cfg rest tys.tail (success && r.1) r.2

/-- Marks parameters and returns of a function definition active in its
virtual scope, validating their declared types. -/
def activateAll (cfg : Config) (vsid : Nat) : List TypedName → St → St
  | [], st => st
  | v :: rest, st =>
    let st := expectValidType cfg v.type v.loc st
    activateAll cfg vsid rest (insertActive st (vsid, v.name))

/-- State in which the for-loop handler analyzes the condition, body and post
block: the pre block is closed and re-opened, its variable count pushed back
onto the stack height and its scope made current again. -/
def forLoopCondState (pre : Block) (stPre : St) : St :=
  { stPre with stackHeight := stPre.stackHeight + numberOfVariables (scopeOf pre),
               scopeChain := scopeOf pre :: stPre.scopeChain }

/-- Type-equality check of all case values of a switch against the scrutinee
type, in case order. -/
def checkCaseTypes (valueType : String) : List SwitchCase → St → Bool × St
  | [], st => (true, st)
  | c :: rest, st =>
    let r : Bool × St :=
      match c.value with
      | some l => expectType valueType l.type l.loc st
      | none => (true, st)
    let rr := checkCaseTypes valueType rest r.2
    (r.1 && rr.1, rr.2)

/-- Work items of the analyzer walk: an expression visit, an expression with a
one-item deposit check, the reverse-order argument walk of a call (collecting
argument types), a function call, a statement, a statement list, a block, and
the case list of a switch with the seen-cases set. -/
inductive Job where
  | jexpr (e : Expression)
  | jexpectExpr (e : Expression)
  | jargs (fnameLoc : Nat) (needsLit : Bool) (args : List Expression)
  | jcall (fname : Identifier) (args : List Expression) (loc : Nat)
  | jstmt (s : Statement)
  | jstmts (ss : List Statement)
  | jblock (b : Block)
  | jcases (valueType : String) (cs : List SwitchCase) (seen : List Nat)

/-- The analyzer walk over the AST, fuel-indexed so that it is structurally
recursive; running out of fuel marks the state crashed.  Results are the
success flag, the collected argument types (meaningful for the argument walk
only), and the updated state. -/
def walk (cfg : Config) : Nat → Job → St → Bool × List String × St
  | 0, _, st => (true, [], setCrashed st)
  | n + 1, job, st =>
    match job with
    | .jexpr e =>
      match e with
      | .lit l =>
        let r := analyzeLiteral cfg l st
        (r.1, [], r.2)
      | .ident i =>
        let r := analyzeIdentifier cfg i st
        (r.1, [], r.2)
      | .call f args loc => walk cfg n (.jcall f args loc) st
    | .jexpectExpr e =>
      let initialHeight := st.stackHeight
      let r := walk cfg n (.jexpr e) st
      if r.1 then
        let d := expectDeposit 1 initialHeight e.loc r.2.2
        (d.1, [], d.2)
      else (false, [], r.2.2)
    | .jargs fnameLoc needsLit args =>
      match args with
      | [] => (true, [], st)
      | a :: rest =>
        let rRest := walk cfg n (.jargs fnameLoc needsLit rest) st
        let rA := walk cfg n (.jexpectExpr a) rRest.2.2
        if rA.1 then
          let t := typeAt0 cfg rA.2.2
          let st := if needsLit then checkLiteralArgument cfg fnameLoc a t.2 else t.2
          (rRest.1, rRest.2.1 ++ [t.1], st)
        else (false, rRest.2.1, rA.2.2)
    | .jcall fname args loc =>
      let st := if fname.name = "" then setCrashed st else st
      let res := resolveCallee cfg fname st
      let sig := res.1
      let needsLit := res.2.1
      let r1 : Bool × St :=
        if res.2.2.1 then
          match sig with
          | some sg =>
            if args.length ≠ sg.1.length then
              (false, reportError res.2.2.2 .typeErr fname.loc
                ("Function expects " ++ toString sg.1.length ++ " arguments but got "
                  ++ toString args.length ++ "."))
            else (true, res.2.2.2)
          | none => (true, setCrashed res.2.2.2)
        else (false, res.2.2.2)
      let rArgs := walk cfg n (.jargs fname.loc needsLit args) r1.2
      let success := r1.1 && rArgs.1
      let r2 : Bool × St :=
        if success then
          match sig with
          | some sg =>
            let st := if sg.1.length = rArgs.2.1.length then rArgs.2.2 else setCrashed rArgs.2.2
            checkParamTypes sg.1 rArgs.2.1 (args.map Expression.loc) st
          | none => (true, setCrashed rArgs.2.2)
        else (success, rArgs.2.2)
      let fin := funCallFinish cfg (sig.map (fun sg => sg.2)) r2.1 args.length loc r2.2
      (fin.1, [], fin.2)
    | .jstmt s =>
      match s with
      | .exprStmt e loc =>
        let initialStackHeight := st.stackHeight
        let r := walk cfg n (.jexpr e) st
        let r2 : Bool × St :=
          if r.1 ∧ r.2.2.stackHeight ≠ initialStackHeight then
            (false, reportError r.2.2 .typeErr loc
              ("Top-level expressions are not supposed to return values (this expression returns "
                ++ toString (r.2.2.stackHeight - initialStackHeight) ++ " value"
                ++ (if r.2.2.stackHeight - initialStackHeight = 1 then "" else "s")
                ++ "). Use ``pop()`` or assign them."))
          else (r.1, r.2.2)
        (r2.1, [], recordHeight r2.2 loc)
      | .assign targets value loc =>
        let st := if 1 ≤ targets.length then st else setCrashed st
        let expectedItems : Int := targets.length
        let stackHeight := st.stackHeight
        let r := walk cfg n (.jexpr value) st
        if r.2.2.stackHeight - stackHeight ≠ expectedItems then
          (false, [], reportError r.2.2 .declarationErr loc
            ("Variable count does not match number of values (" ++ toString expectedItems
              ++ " vs. " ++ toString (r.2.2.stackHeight - stackHeight) ++ ")"))
        else
          let r2 := assignTargets cfg targets r.2.2.typeOfCurrentExpression r.1 r.2.2
          (r2.1, [], recordHeight r2.2 loc)
      | .varDecl vars val loc =>
        let numVariables : Int := vars.length
        let st := match cfg.resolver with
          | some r => notifyResolverDecls r vars (insideFunction st.scopeChain) st
          | none => st
        match val with
        | some v =>
          let stackHeight := st.stackHeight
          let r := walk cfg n (.jexpr v) st
          let numValues := r.2.2.stackHeight - stackHeight
          if numValues ≠ numVariables then
            let st := reportError r.2.2 .declarationErr loc
              ("Variable count mismatch: " ++ toString numVariables ++ " variables and "
                ++ toString numValues ++ " values.")
            (false, [], { st with stackHeight := st.stackHeight + (numVariables - numValues) })
          else
            let r2 := declareVariables cfg vars r.2.2.typeOfCurrentExpression r.1 r.2.2
            (r2.1, [], recordHeight r2.2 loc)
        | none =>
          let st := { st with stackHeight := st.stackHeight + numVariables }
          let r2 := declareVariables cfg vars st.typeOfCurrentExpression true st
          (r2.1, [], recordHeight r2.2 loc)
      | .funDef fname params rets body loc =>
        let st := if fname = "" then setCrashed st else st
        let vscope := virtualScopeOf params rets loc
        let st := activateAll cfg vscope.sid (params ++ rets) st
        let stackHeight := st.stackHeight
        let savedChain := st.scopeChain
        let st := { st with stackHeight := ((params.length + rets.length : Nat) : Int),
                            scopeChain := vscope :: st.scopeChain }
        let r := walk cfg n (.jblock body) st
        let st := { r.2.2 with scopeChain := savedChain, stackHeight := stackHeight }
        (r.1, [], recordHeight st loc)
      | .ifStmt cond body loc =>
        let initialHeight := st.stackHeight
        let r := walk cfg n (.jexpectExpr cond) st
        let r2 : Bool × St :=
          if r.1 then
            let t := typeAt0 cfg r.2.2
            expectType cfg.dialect.boolType t.1 cond.loc t.2
          else (false, r.2.2)
        let st := { r2.2 with stackHeight := initialHeight }
        let rBody := walk cfg n (.jblock body) st
        (r2.1 && rBody.1, [], recordHeight rBody.2.2 loc)
      | .switchStmt scrutinee cs loc =>
        let initialHeight := st.stackHeight
        let r := walk cfg n (.jexpectExpr scrutinee) st
        let vt : String × St :=
          if r.1 then typeAt0 cfg r.2.2
          else (cfg.dialect.defaultType, r.2.2)
        let rTypes := checkCaseTypes vt.1 cs vt.2
        let rCases := walk cfg n (.jcases vt.1 cs []) rTypes.2
        let st := { rCases.2.2 with stackHeight := initialHeight }
        (r.1 && rTypes.1 && rCases.1, [], recordHeight st loc)
      | .forLoop pre cond post body loc =>
        let outerChain := st.scopeChain
        let initialHeight := st.stackHeight
        let rPre := walk cfg n (.jblock pre) st
        let st := forLoopCondState pre rPre.2.2
        let rCond := walk cfg n (.jexpectExpr cond) st
        let r2 : Bool × St :=
          if rCond.1 then
            let t := typeAt0 cfg rCond.2.2
            expectType cfg.dialect.boolType t.1 cond.loc t.2
          else (false, rCond.2.2)
        let st := { r2.2 with stackHeight := r2.2.stackHeight - 1 }
        let outerForLoop := st.currentForLoop
        let st := { st with currentForLoop := some loc }
        let rBody := walk cfg n (.jblock body) st
        let rPost := walk cfg n (.jblock post) rBody.2.2
        let st := { rPost.2.2 with stackHeight := initialHeight }
        let st := recordHeight st loc
        let st := { st with scopeChain := outerChain, currentForLoop := outerForLoop }
        (rPre.1 && r2.1 && rBody.1 && rPost.1, [], st)
      | .blockStmt b => walk cfg n (.jblock b) st
      | .breakStmt loc => (true, [], recordHeight st loc)
      | .continueStmt loc => (true, [], recordHeight st loc)
      | .leaveStmt loc => (true, [], recordHeight st loc)
    | .jstmts ss =>
      match ss with
      | [] => (true, [], st)
      | s :: rest =>
        let r := walk cfg n (.jstmt s) st
        let rRest := walk cfg n (.jstmts rest) r.2.2
        (r.1 && rRest.1, [], rRest.2.2)
    | .jblock b =>
      let previousChain := st.scopeChain
      let frame := scopeOf b
      let st := { st with scopeChain := frame :: st.scopeChain }
      let initialStackHeight := st.stackHeight
      let r := walk cfg n (.jstmts b.stmts) st
      let st := { r.2.2 with stackHeight := r.2.2.stackHeight - numberOfVariables frame }
      let stackDiff := st.stackHeight - initialStackHeight
      let r2 : Bool × St :=
        if r.1 ∧ stackDiff ≠ 0 then
          (false, reportError st .declarationErr b.loc
            ("Unbalanced stack at the end of a block: "
              ++ (if stackDiff > 0 then toString stackDiff ++ " surplus item(s)."
                  else toString (-stackDiff) ++ " missing item(s).")))
        else (r.1, st)
      let st := recordHeight r2.2 b.loc
      (r2.1, [], { st with scopeChain := previousChain })
    | .jcases valueType cs seen =>
      match cs with
      | [] => (true, [], st)
      | c :: rest =>
        let rCase : Bool × List Nat × St :=
          match c.value with
          | some l =>
            let initialStackHeight := st.stackHeight
            let rLit := analyzeLiteral cfg l st
            let d := expectDeposit 1 initialStackHeight l.loc rLit.2
            let st := { d.2 with stackHeight := d.2.stackHeight - 1 }
            let st := if rLit.1 ∨ ¬st.errors.isEmpty then st else setCrashed st
            if rLit.1 ∧ valueOfLiteral l ∈ seen then
              (false, seen, reportError st .declarationErr c.loc "Duplicate case defined.")
            else if rLit.1 then
              (true, seen ++ [valueOfLiteral l], st)
            else (false, seen, st)
          | none => (true, seen, st)
        let rBody := walk cfg n (.jblock c.body) rCase.2.2
        let rRest := walk cfg n (.jcases valueType rest rCase.2.1) rBody.2.2
        (rCase.1 && rBody.1 && rRest.1, [], rRest.2.2)

/-- Result of analyzing a for loop's condition: the pre block is walked, the
condition is walked in the re-opened pre scope, and on success the condition's
type is checked against the dialect's boolean type. -/
def forLoopCondResult (cfg : Config) (n : Nat) (pre : Block) (cond : Expression)
    (s : St) : Bool × St :=
  let rCond := walk cfg n (.jexpectExpr cond)
    (forLoopCondState pre (walk cfg n (.jblock pre) s).2.2)
  if rCond.1 then
    let t := typeAt0 cfg rCond.2.2
    expectType cfg.dialect.boolType t.1 cond.loc t.2
  else (false, rCond.2.2)

/-- State in which the for-loop handler walks the body block: the state after
the condition check, with the condition value popped and the current-for-loop
marker pushed. -/
def forLoopBodyState (cfg : Config) (n : Nat) (pre : Block) (cond : Expression)
    (loc : Nat) (s : St) : St :=
  { (forLoopCondResult cfg n pre cond s).2 with
    stackHeight := (forLoopCondResult cfg n pre cond s).2.stackHeight - 1,
    currentForLoop := some loc }

/-- Duplicate-declaration diagnostics for the names registered in one scope. -/
def dupNameErrors (loc : Nat) : List String → List String → List Diag
  | [], _ => []
  | n :: rest, seen =>
    (if seen.contains n then [⟨ErrKind.declarationErr, loc, "Identifier already declared: " ++ n⟩]
     else [])
      ++ dupNameErrors loc rest (n :: seen)

/-- Duplicate-declaration diagnostics of one block scope. -/
def blockDupErrors (b : Block) : List Diag :=
  dupNameErrors b.loc ((declaredIdents b.stmts).map (fun p => p.1)) []

/-- Modelled from the spec: the failure diagnostics of the scope filler
pre-pass (AsmScopeFiller is not part of the analyzed source): it creates one
scope per block and per function and fails, reporting a declaration error, when
a name is declared twice in the same scope. -/
def fillerErrorsStmts : Nat → List Statement → List Diag
  | 0, _ => []
  | _ + 1, [] => []
  | n + 1, s :: rest =>
    (match s with
     | .blockStmt b => blockDupErrors b ++ fillerErrorsStmts n b.stmts
     | .funDef _ ps rs body bloc =>
       dupNameErrors bloc ((ps ++ rs).map (fun v => v.name)) []
         ++ blockDupErrors body ++ fillerErrorsStmts n body.stmts
     | .ifStmt _ body _ => blockDupErrors body ++ fillerErrorsStmts n body.stmts
     | .forLoop pre _ post body _ =>
       blockDupErrors pre ++ fillerErrorsStmts n pre.stmts
         ++ blockDupErrors post ++ fillerErrorsStmts n post.stmts
         ++ blockDupErrors body ++ fillerErrorsStmts n body.stmts
     | .switchStmt _ cs _ =>
       cs.foldr (fun c acc => blockDupErrors c.body ++ fillerErrorsStmts n c.body.stmts ++ acc) []
     | _ => [])
      ++ fillerErrorsStmts n rest

/-- Filler diagnostics of a whole program. -/
def fillerErrors (fuel : Nat) (b : Block) : List Diag :=
  blockDupErrors b ++ fillerErrorsStmts fuel b.stmts

/-- Fresh analyzer state. -/
def initialState : St :=
  ⟨[], 0, [], [], [], none, [], false⟩

/-- Whether the error reporter is over capacity, the condition under which it
raises the fatal-capacity abort. -/
def reporterOverCapacity (capacity : Nat) (errors : List Diag) : Bool :=
  capacity < errors.length

/-- Top-level entry point: runs the scope filler, then the walk, and returns
success only when the walk succeeded and the reporter holds no errors.  The
completion assertion that no success implies at least one reported error is
modelled by the crash flag. -/
def analyze (cfg : Config) (fuel : Nat) (b : Block) : Bool × St :=
  let fe := fillerErrors fuel b
  if fe.isEmpty then
    let r := walk cfg fuel (.jblock b) initialState
    let st := if r.1 = false ∧ r.2.2.errors.isEmpty then setCrashed r.2.2 else r.2.2
    (r.1 && st.errors.isEmpty, st)
  else (false, { initialState with errors := fe })

/-- Simple single-default-type test dialect. -/
def dialect0 : Dialect :=
  { defaultType := "u", boolType := "bool", types := ["u", "bool"],
    builtin := fun _ => none,
    validTypeForLiteral := fun _ _ _ => true }

/-- Target version with every feature available. -/
def evm0 : EVMVersion :=
  ⟨true, true, true, true, true, true, true, "istanbul"⟩

/-- Test configuration over the simple dialect, without resolver. -/
def cfg0 : Config :=
  { dialect := dialect0, resolver := none, dataNames := [], evmVersion := evm0,
    refInstruction := fun _ => none }

/-- String literal thirty-three bytes long. -/
def badLit : Literal :=
  ⟨.str, "aaaaaaaaaaaaaaaaaaaaaaaaaaaaaaaaa", "u", 7⟩

/-- Program with a block declaring x followed by an empty sibling block. -/
def prog4 : Block :=
  Block.mk
    [ .blockStmt (Block.mk
        [.varDecl [⟨"x", "u", 10⟩] (some (.lit ⟨.number, "1", "u", 11⟩)) 12] 13),
      .blockStmt (Block.mk [] 14)] 15

/-- Block whose only statement is the bare literal expression 1. -/
def prog5 : Block :=
  Block.mk [.exprStmt (.lit ⟨.number, "1", "u", 21⟩) 22] 23

/-- Expression statement consisting of the unresolved identifier y. -/
def stmt9 : Statement :=
  .exprStmt (.ident ⟨"y", 31⟩) 32

/-- Program consisting of the unresolved identifier statement. -/
def prog9 : Block :=
  Block.mk [stmt9] 33

/-- Dialect with two extra value types and a builtin f of signature (A, B). -/
def dialect2 : Dialect :=
  { defaultType := "u", boolType := "bool", types := ["u", "bool", "A", "B"],
    builtin := fun nm => if nm = "f" then some ⟨["A", "B"], [], false⟩ else none,
    validTypeForLiteral := fun _ _ _ => true }

/-- Configuration over the two-type dialect. -/
def cfg2 : Config :=
  { dialect := dialect2, resolver := none, dataNames := [], evmVersion := evm0,
    refInstruction := fun _ => none }

/-- Program calling f with a first argument of type A and a second of type B,
matching the declared parameter types position by position. -/
def prog2 : Block :=
  Block.mk
    [.exprStmt (.call ⟨"f", 5⟩
      [.lit ⟨.number, "1", "A", 6⟩, .lit ⟨.number, "2", "B", 7⟩] 8) 9] 1

/-- Switch statement with two case literals of equal numeric value. -/
def stmt6 : Statement :=
  .switchStmt (.lit ⟨.number, "1", "u", 51⟩)
    [ SwitchCase.mk (some ⟨.number, "1", "u", 52⟩) (Block.mk [] 53) 54,
      SwitchCase.mk (some ⟨.number, "1", "u", 55⟩) (Block.mk [] 56) 57] 58

/-- Configuration whose reference EVM dialect maps jump to the JUMP
instruction. -/
def cfg8 : Config :=
  { dialect := dialect0, resolver := none, dataNames := [], evmVersion := evm0,
    refInstruction := fun nm => if nm = "jump" then some .JUMP else none }

/-- Invariant of one analyzer step: the error list and the active-variable set
only grow by appending at the end, the scope chain and the current for-loop
marker are preserved, and the crash flag is sticky. -/
def StInv (a b : St) : Prop :=
  (∃ t, b.errors = a.errors ++ t) ∧
  (∃ u, b.activeVariables = a.activeVariables ++ u) ∧
  b.scopeChain = a.scopeChain ∧
  b.currentForLoop = a.currentForLoop ∧
  (a.crashed = true → b.crashed = true)

/-- The error list grew by at least one entry. -/
def errStrict (a b : List Diag) : Prop :=
  ∃ d t, b = a ++ d :: t

def StInv.rfl (a : St) : StInv a a :=
  ⟨⟨[], by simp⟩, ⟨[], by simp⟩, Eq.refl _, Eq.refl _, fun h => h⟩

def StInv.trans {a b c : St} (h1 : StInv a b) (h2 : StInv b c) : StInv a c := by
  obtain ⟨⟨t1, e1⟩, ⟨u1, a1⟩, c1, f1, x1⟩ := h1
  obtain ⟨⟨t2, e2⟩, ⟨u2, a2⟩, c2, f2, x2⟩ := h2
  exact ⟨⟨t1 ++ t2, by rw [e2, e1, List.append_assoc]⟩,
         ⟨u1 ++ u2, by rw [a2, a1, List.append_assoc]⟩,
         by rw [c2, c1], by rw [f2, f1], fun h => x2 (x1 h)⟩

theorem StInv.restore {a b c : St} (h : StInv a b)
    (hc : c.errors = b.errors) (ha : c.activeVariables = b.activeVariables)
    (hchain : c.scopeChain = a.scopeChain) (hf : c.currentForLoop = a.currentForLoop)
    (hcr : c.crashed = b.crashed) : StInv a c := by
  obtain ⟨⟨t1, e1⟩, ⟨u1, a1⟩, _, _, x1⟩ := h
  exact ⟨⟨t1, by rw [hc, e1]⟩, ⟨u1, by rw [ha, a1]⟩, hchain, hf,
    fun h2 => by rw [hcr]; exact x1 h2⟩

theorem errStrict.growRight {a b c : List Diag} (h1 : errStrict a b)
    (h2 : ∃ t, c = b ++ t) : errStrict a c := by
  obtain ⟨d, t, e1⟩ := h1
  obtain ⟨t2, e2⟩ := h2
  exact ⟨d, t ++ t2, by rw [e2, e1]; simp⟩

theorem errStrict.growLeft {a b c : List Diag} (h1 : ∃ t, b = a ++ t)
    (h2 : errStrict b c) : errStrict a c := by
  obtain ⟨t1, e1⟩ := h1
  obtain ⟨d, t, e2⟩ := h2
  cases t1 with
  | nil => exact ⟨d, t, by rw [e2, e1]; simp⟩
  | cons x xs => exact ⟨x, xs ++ d :: t, by rw [e2, e1]; simp⟩

theorem stInv_height (s : St) (h : Int) : StInv s { s with stackHeight := h } :=
  ⟨⟨[], by simp⟩, ⟨[], by simp⟩, Eq.refl _, Eq.refl _, fun x => x⟩

theorem stInv_type (s : St) (ts : List String) :
    StInv s { s with typeOfCurrentExpression := ts } :=
  ⟨⟨[], by simp⟩, ⟨[], by simp⟩, Eq.refl _, Eq.refl _, fun x => x⟩

theorem stInv_type_height (s : St) (ts : List String) (h : Int) :
    StInv s { s with typeOfCurrentExpression := ts, stackHeight := h } :=
  ⟨⟨[], by simp⟩, ⟨[], by simp⟩, Eq.refl _, Eq.refl _, fun x => x⟩

theorem stInv_errAppend (s : St) (ds : List Diag) :
    StInv s { s with errors := s.errors ++ ds } :=
  ⟨⟨ds, by simp⟩, ⟨[], by simp⟩, Eq.refl _, Eq.refl _, fun x => x⟩

theorem reportError_inv (s : St) (k : ErrKind) (l : Nat) (m : String) :
    StInv s (reportError s k l m) :=
  ⟨⟨[⟨k, l, m⟩], by simp [reportError]⟩, ⟨[], by simp [reportError]⟩,
    Eq.refl _, Eq.refl _, fun x => x⟩

theorem reportError_strict (s : St) (k : ErrKind) (l : Nat) (m : String) :
    errStrict s.errors (reportError s k l m).errors :=
  ⟨⟨k, l, m⟩, [], by simp [reportError]⟩

theorem setCrashed_inv (s : St) : StInv s (setCrashed s) :=
  ⟨⟨[], by simp [setCrashed]⟩, ⟨[], by simp [setCrashed]⟩,
    Eq.refl _, Eq.refl _, fun _ => Eq.refl _⟩

theorem recordHeight_inv (s : St) (l : Nat) : StInv s (recordHeight s l) :=
  ⟨⟨[], by simp [recordHeight]⟩, ⟨[], by simp [recordHeight]⟩,
    Eq.refl _, Eq.refl _, fun x => x⟩

theorem insertActive_inv (s : St) (k : Nat × String) : StInv s (insertActive s k) := by
  unfold insertActive
  split
  · exact StInv.rfl s
  · exact ⟨⟨[], by simp⟩, ⟨[k], by simp⟩, Eq.refl _, Eq.refl _, fun x => x⟩

theorem expectValidType_inv (cfg : Config) (ty : String) (l : Nat) (s : St) :
    StInv s (expectValidType cfg ty l s) := by
  unfold expectValidType
  split
  · exact StInv.rfl s
  · exact reportError_inv ..

theorem expectType_inv (e g : String) (l : Nat) (s : St) :
    StInv s (expectType e g l s).2 ∧
    ((expectType e g l s).1 = false → errStrict s.errors (expectType e g l s).2.errors) := by
  unfold expectType
  split
  · exact ⟨StInv.rfl s, by simp⟩
  · exact ⟨reportError_inv .., fun _ => reportError_strict ..⟩

theorem expectDeposit_inv (d o : Int) (l : Nat) (s : St) :
    StInv s (expectDeposit d o l s).2 ∧
    ((expectDeposit d o l s).1 = false → errStrict s.errors (expectDeposit d o l s).2.errors) := by
  unfold expectDeposit
  split
  · exact ⟨reportError_inv .., fun _ => reportError_strict ..⟩
  · exact ⟨StInv.rfl s, by simp⟩

theorem typeAt0_inv (cfg : Config) (s : St) : StInv s (typeAt0 cfg s).2 := by
  unfold typeAt0
  split
  · exact setCrashed_inv s
  · exact StInv.rfl s

theorem checkLiteralArgument_inv (cfg : Config) (l : Nat) (a : Expression) (s : St) :
    StInv s (checkLiteralArgument cfg l a s) := by
  unfold checkLiteralArgument
  split
  · split
    · exact StInv.rfl _
    · exact reportError_inv ..
  · exact reportError_inv ..

theorem stInv_ite (c : Prop) [Decidable c] (s t1 t2 : St) (h1 : StInv s t1) (h2 : StInv s t2) :
    StInv s (if c then t1 else t2) := by
  split
  · exact h1
  · exact h2

theorem analyzeLiteral_inv (cfg : Config) (l : Literal) (s : St) :
    StInv s (analyzeLiteral cfg l s).2 ∧
    ((analyzeLiteral cfg l s).1 = false → errStrict s.errors (analyzeLiteral cfg l s).2.errors) := by
  have h2 : StInv s { expectValidType cfg l.type l.loc s with
      stackHeight := (expectValidType cfg l.type l.loc s).stackHeight + 1 } :=
    (expectValidType_inv cfg l.type l.loc s).trans (stInv_height _ _)
  simp only [analyzeLiteral]
  split_ifs with hA hB
  · exact ⟨h2.trans (reportError_inv ..),
      fun _ => errStrict.growLeft h2.1 (reportError_strict ..)⟩
  · exact ⟨h2.trans (reportError_inv ..),
      fun _ => errStrict.growLeft h2.1 (reportError_strict ..)⟩
  · exact ⟨((h2.trans (setCrashed_inv _)).trans (recordHeight_inv _ _)).trans
      (stInv_type _ _), by simp⟩
  · exact ⟨(h2.trans (recordHeight_inv _ _)).trans (stInv_type _ _), by simp⟩
  · exact ⟨(((h2.trans (setCrashed_inv _)).trans (reportError_inv ..)).trans
      (recordHeight_inv _ _)).trans (stInv_type _ _), by simp⟩
  · exact ⟨((h2.trans (reportError_inv ..)).trans (recordHeight_inv _ _)).trans
      (stInv_type _ _), by simp⟩

theorem errStrict.congr {a : List Diag} {X Y : List Diag} (e : X = Y) (h : errStrict a Y) :
    errStrict a X :=
  e ▸ h

theorem analyzeIdentifier_inv (cfg : Config) (i : Identifier) (s : St) :
    StInv s (analyzeIdentifier cfg i s).2 ∧
    ((analyzeIdentifier cfg i s).1 = false → errStrict s.errors (analyzeIdentifier cfg i s).2.errors) := by
  simp only [analyzeIdentifier]
  set s0 : St := (if i.name = "" then setCrashed s else s) with hs0
  have hinv0 : StInv s s0 := by
    rw [hs0]; exact stInv_ite _ _ _ _ (setCrashed_inv s) (StInv.rfl s)
  have herr0 : s0.errors = s.errors := by
    rw [hs0]; split <;> rfl
  clear_value s0
  dsimp only
  split
  case h_1 sid t heq =>
    split_ifs with hact
    · exact ⟨((hinv0.trans (stInv_type _ _)).trans (stInv_type_height _ _ _)).trans
        (recordHeight_inv _ _), by simp⟩
    · refine ⟨(((hinv0.trans (stInv_type _ _)).trans (reportError_inv ..)).trans
        (stInv_type_height _ _ _)).trans (recordHeight_inv _ _), fun _ => ?_⟩
      exact ⟨⟨.declarationErr, i.loc, "Variable " ++ i.name ++ " used before it was declared."⟩,
        [], by simp [recordHeight, reportError, herr0]⟩
  case h_2 x heq =>
    refine ⟨((hinv0.trans (stInv_type _ _)).trans (reportError_inv ..)).trans
      (recordHeight_inv _ _), fun _ => ?_⟩
    exact ⟨⟨.typeErr, i.loc, "Function " ++ i.name ++ " used without being called."⟩,
      [], by simp [recordHeight, reportError, herr0]⟩
  case h_3 heq =>
    rcases hres : cfg.resolver with _ | r
    · simp only [hres]
      split_ifs with hlen
      · refine ⟨(((hinv0.trans (stInv_type _ _)).trans (reportError_inv ..)).trans
          (stInv_height _ _)).trans (recordHeight_inv _ _), fun _ => ?_⟩
        exact ⟨⟨.declarationErr, i.loc, "Identifier not found."⟩,
          [], by simp [recordHeight, reportError, herr0]⟩
      · exact absurd trivial hlen
    · simp only [hres]
      rcases hcall : r i IdentifierContext.rvalue (insideFunction s0.scopeChain) with ⟨sz, ds⟩
      simp only [hcall]
      set sMid : St := { s0 with typeOfCurrentExpression := [cfg.dialect.defaultType], errors := s0.errors ++ ds } with hsMid
      have hmid : StInv s sMid := by
        rw [hsMid]
        exact (hinv0.trans (stInv_type _ _)).trans (stInv_errAppend _ _)
      have herrMid : sMid.errors = s.errors ++ ds := by
        rw [hsMid]
        simp [herr0]
      clear_value sMid
      rcases sz with _ | k
      · dsimp only
        split_ifs with hlen
        · refine ⟨((hmid.trans (reportError_inv ..)).trans
            (stInv_height _ _)).trans (recordHeight_inv _ _), fun _ => ?_⟩
          exact errStrict.congr (by simp [recordHeight])
            (errStrict.growLeft ⟨ds, herrMid⟩
              (reportError_strict sMid .declarationErr i.loc "Identifier not found."))
        · refine ⟨(hmid.trans (stInv_height _ _)).trans (recordHeight_inv _ _), fun _ => ?_⟩
          have hds : ds ≠ [] := by
            intro hd
            apply hlen
            simp [hd]
          rcases ds with _ | ⟨d, t⟩
          · exact absurd rfl hds
          · exact errStrict.congr (by simp [recordHeight]) ⟨d, t, herrMid⟩
      · dsimp only
        obtain ⟨u, hu⟩ := hinv0.2.1
        refine ⟨⟨⟨ds, ?_⟩, ⟨u, ?_⟩, ?_, ?_, ?_⟩, by simp⟩
        · simp [recordHeight, herr0]
        · simp [recordHeight, hu]
        · simp [recordHeight, hinv0.2.2.1]
        · simp [recordHeight, hinv0.2.2.2.1]
        · intro hc
          simpa [recordHeight] using hinv0.2.2.2.2 hc

theorem errStrict_of_ne {a b : List Diag} {t : List Diag} (h : b = a ++ t) (hne : t ≠ []) :
    errStrict a b := by
  rcases t with _ | ⟨d, t2⟩
  · exact absurd rfl hne
  · exact ⟨d, t2, h⟩

theorem checkAssignment_inv (cfg : Config) (v : Identifier) (valueType : String) (s : St) :
    StInv s (checkAssignment cfg v valueType s).2 ∧
    ((checkAssignment cfg v valueType s).1 = false →
      errStrict s.errors (checkAssignment cfg v valueType s).2.errors) := by
  simp only [checkAssignment]
  set s0 : St := (if v.name = "" then setCrashed s else s) with hs0
  have hinv0 : StInv s s0 := by
    rw [hs0]; exact stInv_ite _ _ _ _ (setCrashed_inv s) (StInv.rfl s)
  have herr0 : s0.errors = s.errors := by
    rw [hs0]; split <;> rfl
  clear_value s0
  obtain ⟨u0, hu0⟩ := hinv0.2.1
  have hch : s0.scopeChain = s.scopeChain := hinv0.2.2.1
  have hfl : s0.currentForLoop = s.currentForLoop := hinv0.2.2.2.1
  have hcr : s.crashed = true → s0.crashed = true := hinv0.2.2.2.2
  clear hs0 hinv0
  rcases hlk : lookupGo false s0.scopeChain v.name with _ | ⟨sid, id⟩
  · simp only [hlk]
    rcases hres : cfg.resolver with _ | r
    · simp only [hres]
      try dsimp only
      split_ifs <;>
        refine ⟨⟨⟨_, by simp [reportError, herr0]; try rfl⟩,
          ⟨_, by simp [reportError, hu0]; try rfl⟩,
          by simp [reportError, hch], by simp [reportError, hfl],
          fun hc => by simp [reportError, hcr hc]⟩, ?_⟩ <;>
        first
          | (simp; done)
          | (intro _; exact ⟨_, _, by simp [reportError, herr0]; try (first | exact ⟨rfl, rfl⟩ | rfl)⟩)
          | (exfalso; simp_all)
    · simp only [hres]
      rcases hcall : r v IdentifierContext.lvalue (insideFunction s0.scopeChain) with ⟨sz, ds⟩
      simp only [hcall]
      rcases ds with _ | ⟨d0, ds2⟩ <;>
        rcases sz with _ | k <;>
        (try dsimp only) <;>
        split_ifs <;>
        refine ⟨⟨⟨_, by simp [reportError, herr0]; try rfl⟩,
          ⟨_, by simp [reportError, hu0]; try rfl⟩,
          by simp [reportError, hch], by simp [reportError, hfl],
          fun hc => by simp [reportError, hcr hc]⟩, ?_⟩ <;>
        first
          | (simp; done)
          | (intro _; exact ⟨_, _, by simp [reportError, herr0]; try (first | exact ⟨rfl, rfl⟩ | rfl)⟩)
          | (exfalso; simp_all)
  · simp only [hlk]
    rcases id with t | ⟨a, r⟩ <;>
      (try dsimp only) <;>
      split_ifs <;>
      refine ⟨⟨⟨_, by simp [reportError, herr0]; try rfl⟩,
        ⟨_, by simp [reportError, hu0]; try rfl⟩,
        by simp [reportError, hch], by simp [reportError, hfl],
        fun hc => by simp [reportError, hcr hc]⟩, ?_⟩ <;>
      first
        | (simp; done)
        | (intro _; exact ⟨_, _, by simp [reportError, herr0]; try (first | exact ⟨rfl, rfl⟩ | rfl)⟩)
        | (exfalso; simp_all)

/-- Invariant of a flagged analyzer step: the state invariant holds and a false
flag certifies that at least one error was appended. -/
def StInvF (s : St) (b : Bool) (s2 : St) : Prop :=
  StInv s s2 ∧ (b = false → errStrict s.errors s2.errors)

def StInvF.ofTrue {s s2 : St} (h : StInv s s2) : StInvF s true s2 :=
  ⟨h, by simp⟩

def StInvF.pre {s s1 s2 : St} {b : Bool} (h1 : StInv s s1) (H : StInvF s1 b s2) :
    StInvF s b s2 :=
  ⟨h1.trans H.1, fun hb => errStrict.growLeft h1.1 (H.2 hb)⟩

def StInvF.post {s s1 s2 : St} {b : Bool} (H : StInvF s b s1) (h2 : StInv s1 s2) :
    StInvF s b s2 :=
  ⟨H.1.trans h2, fun hb => (H.2 hb).growRight h2.1⟩

def StInvF.seq {s s1 s2 : St} {b1 b2 : Bool} (H1 : StInvF s b1 s1) (H2 : StInvF s1 b2 s2) :
    StInvF s (b1 && b2) s2 := by
  refine ⟨H1.1.trans H2.1, fun hb => ?_⟩
  cases b1
  · exact (H1.2 rfl).growRight H2.1.1
  · cases b2
    · exact errStrict.growLeft H1.1.1 (H2.2 rfl)
    · simp at hb

def StInvF.flag {s s2 : St} {b b2 : Bool} (H : StInvF s b s2) (h : b2 = false → b = false) :
    StInvF s b2 s2 :=
  ⟨H.1, fun hb => H.2 (h hb)⟩

def StInvF.falseReport {s s1 : St} (h : StInv s s1) (k : ErrKind) (l : Nat) (m : String) :
    StInvF s false (reportError s1 k l m) :=
  ⟨h.trans (reportError_inv ..), fun _ => errStrict.growLeft h.1 (reportError_strict ..)⟩

theorem analyzeLiteral_invF (cfg : Config) (l : Literal) (s : St) :
    StInvF s (analyzeLiteral cfg l s).1 (analyzeLiteral cfg l s).2 :=
  analyzeLiteral_inv cfg l s

theorem analyzeIdentifier_invF (cfg : Config) (i : Identifier) (s : St) :
    StInvF s (analyzeIdentifier cfg i s).1 (analyzeIdentifier cfg i s).2 :=
  analyzeIdentifier_inv cfg i s

theorem checkAssignment_invF (cfg : Config) (v : Identifier) (valueType : String) (s : St) :
    StInvF s (checkAssignment cfg v valueType s).1 (checkAssignment cfg v valueType s).2 :=
  checkAssignment_inv cfg v valueType s

theorem expectType_invF (e g : String) (l : Nat) (s : St) :
    StInvF s (expectType e g l s).1 (expectType e g l s).2 :=
  expectType_inv e g l s

theorem expectDeposit_invF (d o : Int) (l : Nat) (s : St) :
    StInvF s (expectDeposit d o l s).1 (expectDeposit d o l s).2 :=
  expectDeposit_inv d o l s

theorem warnOnInstructions_inv (cfg : Config) (instr : Instruction) (l : Nat) (s : St) :
    StInv s (warnOnInstructions cfg instr l s).2 ∧
    ((warnOnInstructions cfg instr l s).1 = true →
      errStrict s.errors (warnOnInstructions cfg instr l s).2.errors) := by
  simp only [warnOnInstructions]
  split_ifs <;>
    refine ⟨⟨⟨_, by simp [reportError, errorForVM, setCrashed]; try (first | exact ⟨rfl, rfl⟩ | rfl)⟩,
      ⟨_, by simp [reportError, errorForVM, setCrashed]; try rfl⟩,
      by simp [reportError, errorForVM, setCrashed],
      by simp [reportError, errorForVM, setCrashed],
      fun hc => by simp [reportError, errorForVM, setCrashed, hc]⟩, ?_⟩ <;>
    first
      | (simp; done)
      | (intro _
         exact ⟨_, _, by simp [reportError, errorForVM, setCrashed]; try (first | exact ⟨rfl, rfl⟩ | rfl)⟩)

theorem warnOnInstructionsByName_inv (cfg : Config) (nm : String) (l : Nat) (s : St) :
    StInv s (warnOnInstructionsByName cfg nm l s).2 ∧
    ((warnOnInstructionsByName cfg nm l s).1 = true →
      errStrict s.errors (warnOnInstructionsByName cfg nm l s).2.errors) := by
  simp only [warnOnInstructionsByName]
  rcases cfg.refInstruction nm with _ | i
  · exact ⟨StInv.rfl s, by simp⟩
  · exact warnOnInstructions_inv cfg i l s

theorem resolveCallee_inv (cfg : Config) (f : Identifier) (s : St) :
    StInv s (resolveCallee cfg f s).2.2.2 ∧
    ((resolveCallee cfg f s).2.2.1 = false →
      errStrict s.errors (resolveCallee cfg f s).2.2.2.errors) := by
  simp only [resolveCallee]
  rcases cfg.dialect.builtin f.name with _ | b
  · rcases hlk : lookupGo false s.scopeChain f.name with _ | ⟨sid, id⟩
    · simp only [hlk]
      have hw := warnOnInstructionsByName_inv cfg f.name f.loc s
      rcases hwf : (warnOnInstructionsByName cfg f.name f.loc s).1 with _ | _
      · simp only [hwf, if_false, Bool.false_eq_true]
        exact ⟨hw.1.trans (reportError_inv ..),
          fun _ => errStrict.growLeft hw.1.1 (reportError_strict ..)⟩
      · simp only [hwf, if_true]
        exact ⟨hw.1, fun _ => hw.2 hwf⟩
    · simp only [hlk]
      rcases id with t | ⟨a, r⟩
      · exact ⟨reportError_inv .., fun _ => reportError_strict ..⟩
      · exact ⟨StInv.rfl s, by simp⟩
  · exact ⟨StInv.rfl s, by simp⟩

theorem funCallFinish_inv (cfg : Config) (rt : Option (List String)) (b : Bool)
    (n : Nat) (l : Nat) (s : St) :
    StInv s (funCallFinish cfg rt b n l s).2 ∧ (funCallFinish cfg rt b n l s).1 = b := by
  simp only [funCallFinish]
  rcases rt with _ | ts <;> rcases b <;>
    refine ⟨⟨⟨_, by simp [recordHeight, setCrashed]; try rfl⟩,
      ⟨_, by simp [recordHeight, setCrashed]; try rfl⟩,
      by simp [recordHeight, setCrashed],
      by simp [recordHeight, setCrashed],
      fun hc => by simp [recordHeight, setCrashed, hc]⟩, by simp⟩

theorem checkParamTypes_inv :
    ∀ (ps ats : List String) (ls : List Nat) (s : St),
      StInvF s (checkParamTypes ps ats ls s).1 (checkParamTypes ps ats ls s).2
  | [], _, _, s => StInvF.ofTrue (StInv.rfl s)
  | _ :: _, [], _, s => StInvF.ofTrue (setCrashed_inv s)
  | _ :: _, _ :: _, [], s => StInvF.ofTrue (setCrashed_inv s)
  | p :: ps, a :: ats, l :: ls, s => by
    simp only [checkParamTypes]
    exact (expectType_invF p a l s).seq (checkParamTypes_inv ps ats ls _)

theorem checkCaseTypes_inv (vt : String) :
    ∀ (cs : List SwitchCase) (s : St),
      StInvF s (checkCaseTypes vt cs s).1 (checkCaseTypes vt cs s).2
  | [], s => StInvF.ofTrue (StInv.rfl s)
  | c :: cs, s => by
    simp only [checkCaseTypes]
    rcases c.value with _ | lit
    · simp only
      exact (StInvF.ofTrue (StInv.rfl s)).seq (checkCaseTypes_inv vt cs _)
    · simp only
      exact (expectType_invF vt lit.type lit.loc s).seq (checkCaseTypes_inv vt cs _)

theorem notifyResolverDecls_inv
    (r : Identifier → IdentifierContext → Bool → Option Nat × List Diag) :
    ∀ (vars : List TypedName) (insideFn : Bool) (s : St),
      StInv s (notifyResolverDecls r vars insideFn s)
  | [], _, s => StInv.rfl s
  | v :: rest, insideFn, s => by
    simp only [notifyResolverDecls]
    exact (stInv_errAppend _ _).trans (notifyResolverDecls_inv r rest insideFn _)

theorem activateAll_inv (cfg : Config) (vs : Nat) :
    ∀ (vars : List TypedName) (s : St), StInv s (activateAll cfg vs vars s)
  | [], s => StInv.rfl s
  | v :: rest, s => by
    simp only [activateAll]
    exact ((expectValidType_inv ..).trans (insertActive_inv ..)).trans
      (activateAll_inv cfg vs rest _)

theorem declareVariableStep_inv (cfg : Config) (v : TypedName) (g : String) (s : St) :
    StInvF s (declareVariableStep cfg v g s).1 (declareVariableStep cfg v g s).2 := by
  simp only [declareVariableStep, expectValidType, insertActive]
  split_ifs <;>
    (try dsimp only) <;>
    split <;>
    (try split) <;>
    (try split_ifs) <;>
    refine ⟨⟨⟨_, by simp [reportError, setCrashed]; try rfl⟩,
      ⟨_, by simp [reportError, setCrashed]; try rfl⟩,
      by simp [reportError, setCrashed],
      by simp [reportError, setCrashed],
      fun hc => by simp [reportError, setCrashed, hc]⟩, ?_⟩ <;>
    first
      | (simp; done)
      | (intro _
         exact ⟨_, _, by simp [reportError, setCrashed]; try (first | exact ⟨rfl, rfl⟩ | rfl)⟩)
      | (exfalso; simp_all)

theorem declareVariables_inv (cfg : Config) :
    ∀ (vars : List TypedName) (tys : List String) (b : Bool) (s : St),
      StInv s (declareVariables cfg vars tys b s).2 ∧
      ((declareVariables cfg vars tys b s).1 = false →
        b = false ∨ errStrict s.errors (declareVariables cfg vars tys b s).2.errors)
  | [], _, b, s => ⟨StInv.rfl s, fun hb => Or.inl hb⟩
  | v :: rest, [], b, s => by
    simp only [declareVariables]
    have hstep := declareVariableStep_inv cfg v cfg.dialect.defaultType s
    have hrest := declareVariables_inv cfg rest List.nil.tail
      (b && (declareVariableStep cfg v cfg.dialect.defaultType s).1)
      (declareVariableStep cfg v cfg.dialect.defaultType s).2
    refine ⟨hstep.1.trans hrest.1, fun hb => ?_⟩
    rcases hrest.2 hb with hb2 | hstrict
    · by_cases hbb : b = false
      · exact Or.inl hbb
      · have hsf : (declareVariableStep cfg v cfg.dialect.defaultType s).1 = false := by
          rcases Bool.eq_false_or_eq_true b with h | h
          · simpa [h] using hb2
          · exact absurd h hbb
        exact Or.inr ((hstep.2 hsf).growRight hrest.1.1)
    · exact Or.inr (errStrict.growLeft hstep.1.1 hstrict)
  | v :: rest, t0 :: tys2, b, s => by
    simp only [declareVariables]
    have hstep := declareVariableStep_inv cfg v t0 s
    have hrest := declareVariables_inv cfg rest (t0 :: tys2).tail
      (b && (declareVariableStep cfg v t0 s).1) (declareVariableStep cfg v t0 s).2
    refine ⟨hstep.1.trans hrest.1, fun hb => ?_⟩
    rcases hrest.2 hb with hb2 | hstrict
    · by_cases hbb : b = false
      · exact Or.inl hbb
      · have hsf : (declareVariableStep cfg v t0 s).1 = false := by
          rcases Bool.eq_false_or_eq_true b with h | h
          · simpa [h] using hb2
          · exact absurd h hbb
        exact Or.inr ((hstep.2 hsf).growRight hrest.1.1)
    · exact Or.inr (errStrict.growLeft hstep.1.1 hstrict)

theorem assignTargets_inv (cfg : Config) :
    ∀ (vars : List Identifier) (tys : List String) (b : Bool) (s : St),
      StInv s (assignTargets cfg vars tys b s).2 ∧
      ((assignTargets cfg vars tys b s).1 = false →
        b = false ∨ errStrict s.errors (assignTargets cfg vars tys b s).2.errors)
  | [], _, b, s => ⟨StInv.rfl s, fun hb => Or.inl hb⟩
  | v :: rest, [], b, s => by
    simp only [assignTargets]
    have hstep := checkAssignment_invF cfg v cfg.dialect.defaultType s
    have hrest := assignTargets_inv cfg rest List.nil.tail
      (b && (checkAssignment cfg v cfg.dialect.defaultType s).1)
      (checkAssignment cfg v cfg.dialect.defaultType s).2
    refine ⟨hstep.1.trans hrest.1, fun hb => ?_⟩
    rcases hrest.2 hb with hb2 | hstrict
    · by_cases hbb : b = false
      · exact Or.inl hbb
      · have hsf : (checkAssignment cfg v cfg.dialect.defaultType s).1 = false := by
          rcases Bool.eq_false_or_eq_true b with h | h
          · simpa [h] using hb2
          · exact absurd h hbb
        exact Or.inr ((hstep.2 hsf).growRight hrest.1.1)
    · exact Or.inr (errStrict.growLeft hstep.1.1 hstrict)
  | v :: rest, t0 :: tys2, b, s => by
    simp only [assignTargets]
    have hstep := checkAssignment_invF cfg v t0 s
    have hrest := assignTargets_inv cfg rest (t0 :: tys2).tail
      (b && (checkAssignment cfg v t0 s).1) (checkAssignment cfg v t0 s).2
    refine ⟨hstep.1.trans hrest.1, fun hb => ?_⟩
    rcases hrest.2 hb with hb2 | hstrict
    · by_cases hbb : b = false
      · exact Or.inl hbb
      · have hsf : (checkAssignment cfg v t0 s).1 = false := by
          rcases Bool.eq_false_or_eq_true b with h | h
          · simpa [h] using hb2
          · exact absurd h hbb
        exact Or.inr ((hstep.2 hsf).growRight hrest.1.1)
    · exact Or.inr (errStrict.growLeft hstep.1.1 hstrict)

theorem resolveCallee_invF (cfg : Config) (f : Identifier) (s : St) :
    StInvF s (resolveCallee cfg f s).2.2.1 (resolveCallee cfg f s).2.2.2 :=
  resolveCallee_inv cfg f s

theorem StInv.throughScope {s pushed r fin : St}
    (hpe : pushed.errors = s.errors) (hpa : pushed.activeVariables = s.activeVariables)
    (hpf : pushed.currentForLoop = s.currentForLoop) (hpc : pushed.crashed = s.crashed)
    (h : StInv pushed r)
    (hfe : fin.errors = r.errors) (hfa : fin.activeVariables = r.activeVariables)
    (hfc : fin.scopeChain = s.scopeChain) (hff : fin.currentForLoop = r.currentForLoop)
    (hfx : fin.crashed = r.crashed) : StInv s fin := by
  obtain ⟨⟨t, he⟩, ⟨u, ha⟩, _, hf, hx⟩ := h
  refine ⟨⟨t, by rw [hfe, he, hpe]⟩, ⟨u, by rw [hfa, ha, hpa]⟩, hfc,
    by rw [hff, hf, hpf], fun hc => ?_⟩
  rw [hfx]
  exact hx (by rw [hpc]; exact hc)

/-- Loose state invariant ignoring the scope chain and for-loop marker: errors
and active variables grow by appending and the crash flag is sticky. -/
def StL (a c : St) : Prop :=
  (∃ t, c.errors = a.errors ++ t) ∧
  (∃ u, c.activeVariables = a.activeVariables ++ u) ∧
  (a.crashed = true → c.crashed = true)

/-- Flagged loose invariant: loose invariant plus strict error growth on a
false flag. -/
def StLF (a : St) (b : Bool) (c : St) : Prop :=
  StL a c ∧ (b = false → errStrict a.errors c.errors)

def StL.rfl (a : St) : StL a a :=
  ⟨⟨[], by simp⟩, ⟨[], by simp⟩, id⟩

def StL.trans {a b c : St} (h1 : StL a b) (h2 : StL b c) : StL a c := by
  obtain ⟨⟨t1, e1⟩, ⟨u1, a1⟩, x1⟩ := h1
  obtain ⟨⟨t2, e2⟩, ⟨u2, a2⟩, x2⟩ := h2
  exact ⟨⟨t1 ++ t2, by rw [e2, e1, List.append_assoc]⟩,
    ⟨u1 ++ u2, by rw [a2, a1, List.append_assoc]⟩, fun h => x2 (x1 h)⟩

theorem StInv.toL {a b : St} (h : StInv a b) : StL a b :=
  ⟨h.1, h.2.1, h.2.2.2.2⟩

theorem StInvF.toLF {a c : St} {b : Bool} (h : StInvF a b c) : StLF a b c :=
  ⟨h.1.toL, h.2⟩

def StLF.ofTrue {a c : St} (h : StL a c) : StLF a true c :=
  ⟨h, by simp⟩

def StLF.pre {s s1 s2 : St} {b : Bool} (h1 : StL s s1) (H : StLF s1 b s2) :
    StLF s b s2 :=
  ⟨h1.trans H.1, fun hb => errStrict.growLeft h1.1 (H.2 hb)⟩

def StLF.post {s s1 s2 : St} {b : Bool} (H : StLF s b s1) (h2 : StL s1 s2) :
    StLF s b s2 :=
  ⟨H.1.trans h2, fun hb => (H.2 hb).growRight h2.1⟩

def StLF.seq {s s1 s2 : St} {b1 b2 : Bool} (H1 : StLF s b1 s1) (H2 : StLF s1 b2 s2) :
    StLF s (b1 && b2) s2 := by
  refine ⟨H1.1.trans H2.1, fun hb => ?_⟩
  cases b1
  · exact (H1.2 rfl).growRight H2.1.1
  · cases b2
    · exact errStrict.growLeft H1.1.1 (H2.2 rfl)
    · simp at hb

def StLF.flag {s s2 : St} {b b2 : Bool} (H : StLF s b s2) (h : b2 = false → b = false) :
    StLF s b2 s2 :=
  ⟨H.1, fun hb => H.2 (h hb)⟩

def StLF.falseReport {s s1 : St} (h : StL s s1) (k : ErrKind) (l : Nat) (m : String) :
    StLF s false (reportError s1 k l m) :=
  ⟨h.trans (reportError_inv ..).toL, fun _ => errStrict.growLeft h.1 (reportError_strict ..)⟩

theorem stL_chainSet (s : St) (c : List ScopeFrame) : StL s { s with scopeChain := c } :=
  ⟨⟨[], by simp⟩, ⟨[], by simp⟩, id⟩

theorem stL_heightChainSet (s : St) (h : Int) (c : List ScopeFrame) :
    StL s { s with stackHeight := h, scopeChain := c } :=
  ⟨⟨[], by simp⟩, ⟨[], by simp⟩, id⟩

theorem stL_forLoopSet (s : St) (f : Option Nat) : StL s { s with currentForLoop := f } :=
  ⟨⟨[], by simp⟩, ⟨[], by simp⟩, id⟩

theorem stL_chainForLoopSet (s : St) (c : List ScopeFrame) (f : Option Nat) :
    StL s { s with scopeChain := c, currentForLoop := f } :=
  ⟨⟨[], by simp⟩, ⟨[], by simp⟩, id⟩

theorem stL_iteCrash (c : Prop) [Decidable c] (s : St) :
    StL s (if c then s else setCrashed s) := by
  split
  · exact StL.rfl s
  · exact (setCrashed_inv s).toL

theorem stL_iteCrashPre (c : Prop) [Decidable c] (s : St) :
    StL s (if c then setCrashed s else s) := by
  split
  · exact (setCrashed_inv s).toL
  · exact StL.rfl s

theorem stL_forLoopCondState (b : Block) (s : St) : StL s (forLoopCondState b s) :=
  ⟨⟨[], by simp [forLoopCondState]⟩, ⟨[], by simp [forLoopCondState]⟩, id⟩

/-- Induction hypothesis for the walk at a given fuel: the loose flagged
invariant holds for every job and state. -/
def WalkIH (cfg : Config) (n : Nat) : Prop :=
  ∀ (j : Job) (s : St), StLF s (walk cfg n j s).1 (walk cfg n j s).2.2

theorem StLF.finish {s mid : St} {b : Bool} (cfg : Config) (rt : Option (List String))
    (na : Nat) (loc : Nat) (H : StLF s b mid) :
    StLF s (funCallFinish cfg rt b na loc mid).1 (funCallFinish cfg rt b na loc mid).2 := by
  have hfin := funCallFinish_inv cfg rt b na loc mid
  exact ⟨H.1.trans hfin.1.toL,
    fun hb => (H.2 (by rw [hfin.2] at hb; exact hb)).growRight hfin.1.toL.1⟩

theorem walkL_jexpr (cfg : Config) (n : Nat) (e : Expression) (s : St) (IH : WalkIH cfg n) :
    StLF s (walk cfg (n + 1) (.jexpr e) s).1 (walk cfg (n + 1) (.jexpr e) s).2.2 := by
  rcases e with l | i | ⟨f, args, loc⟩
  · simpa only [walk] using (analyzeLiteral_invF cfg l s).toLF
  · simpa only [walk] using (analyzeIdentifier_invF cfg i s).toLF
  · simpa only [walk] using IH (.jcall f args loc) s

theorem walkL_jexpectExpr (cfg : Config) (n : Nat) (e : Expression) (s : St)
    (IH : WalkIH cfg n) :
    StLF s (walk cfg (n + 1) (.jexpectExpr e) s).1 (walk cfg (n + 1) (.jexpectExpr e) s).2.2 := by
  simp only [walk]
  have hr := IH (.jexpr e) s
  split
  · exact StLF.pre hr.1 (expectDeposit_invF 1 s.stackHeight e.loc _).toLF
  · rename_i h
    have hb : (walk cfg n (.jexpr e) s).1 = false := by simpa using h
    exact ⟨hr.1, fun _ => hr.2 hb⟩

theorem walkL_jargs (cfg : Config) (n : Nat) (fnameLoc : Nat) (needsLit : Bool)
    (args : List Expression) (s : St) (IH : WalkIH cfg n) :
    StLF s (walk cfg (n + 1) (.jargs fnameLoc needsLit args) s).1
      (walk cfg (n + 1) (.jargs fnameLoc needsLit args) s).2.2 := by
  rcases args with _ | ⟨a, rest⟩
  · simp only [walk]
    exact StLF.ofTrue (StL.rfl s)
  · simp only [walk]
    have hRest := IH (.jargs fnameLoc needsLit rest) s
    have hA := IH (.jexpectExpr a) (walk cfg n (.jargs fnameLoc needsLit rest) s).2.2
    have hcl : ∀ t : St, StL t (if needsLit then checkLiteralArgument cfg fnameLoc a t else t) := by
      intro t
      cases needsLit
      · simpa using StL.rfl t
      · simpa using (checkLiteralArgument_inv cfg fnameLoc a t).toL
    split
    · exact hRest.post (hA.1.trans ((typeAt0_inv cfg _).toL.trans (hcl _)))
    · rename_i h
      have hb : (walk cfg n (.jexpectExpr a)
          (walk cfg n (.jargs fnameLoc needsLit rest) s).2.2).1 = false := by simpa using h
      exact ⟨hRest.1.trans hA.1, fun _ => errStrict.growLeft hRest.1.1 (hA.2 hb)⟩

theorem walkL_jstmts (cfg : Config) (n : Nat) (ss : List Statement) (s : St)
    (IH : WalkIH cfg n) :
    StLF s (walk cfg (n + 1) (.jstmts ss) s).1 (walk cfg (n + 1) (.jstmts ss) s).2.2 := by
  rcases ss with _ | ⟨st1, rest⟩
  · simp only [walk]
    exact StLF.ofTrue (StL.rfl s)
  · simp only [walk]
    exact (IH (.jstmt st1) s).seq (IH (.jstmts rest) _)

theorem walkL_jblock (cfg : Config) (n : Nat) (b : Block) (s : St) (IH : WalkIH cfg n) :
    StLF s (walk cfg (n + 1) (.jblock b) s).1 (walk cfg (n + 1) (.jblock b) s).2.2 := by
  simp only [walk]
  have hw := IH (.jstmts b.stmts) { s with scopeChain := scopeOf b :: s.scopeChain }
  split
  · exact ⟨(((stL_chainSet s _).trans hw.1).trans
        ((stInv_height _ _).toL.trans (reportError_inv ..).toL)).trans
        ((recordHeight_inv ..).toL.trans (stL_chainSet _ _)),
      fun _ => (errStrict.growLeft
        ((stL_chainSet s _).trans (hw.1.trans (stInv_height _ _).toL)).1
        (reportError_strict ..)).growRight
        ((recordHeight_inv ..).toL.trans (stL_chainSet _ _)).1⟩
  · exact StLF.pre (stL_chainSet s _)
      (hw.post ((stInv_height _ _).toL.trans ((recordHeight_inv ..).toL.trans (stL_chainSet _ _))))

theorem walkL_jcases (cfg : Config) (n : Nat) (valueType : String) (cs : List SwitchCase)
    (seen : List Nat) (s : St) (IH : WalkIH cfg n) :
    StLF s (walk cfg (n + 1) (.jcases valueType cs seen) s).1
      (walk cfg (n + 1) (.jcases valueType cs seen) s).2.2 := by
  rcases cs with _ | ⟨c, rest⟩
  · simp only [walk]
    exact StLF.ofTrue (StL.rfl s)
  · simp only [walk]
    rcases hcv : c.value with _ | l <;> simp only [hcv]
    · exact (StLF.ofTrue (StL.rfl s)).seq
        ((IH (.jblock c.body) s).seq (IH (.jcases valueType rest seen) _))
    · have hlit := (analyzeLiteral_invF cfg l s).toLF
      have hd := (expectDeposit_invF 1 s.stackHeight l.loc (analyzeLiteral cfg l s).2).toLF
      by_cases h1 : (analyzeLiteral cfg l s).1 = true ∧ valueOfLiteral l ∈ seen
      · rw [if_pos h1, if_pos (Or.inl h1.1)]
        refine ⟨?_, fun _ => ?_⟩
        · exact ((((hlit.1.trans hd.1).trans (stInv_height _ _).toL).trans
            (reportError_inv ..).toL).trans
            ((IH (.jblock c.body) _).1.trans (IH (.jcases valueType rest seen) _).1))
        · exact (errStrict.growLeft ((hlit.1.trans hd.1).trans (stInv_height _ _).toL).1
            (reportError_strict ..)).growRight
            ((IH (.jblock c.body) _).1.trans (IH (.jcases valueType rest seen) _).1).1
      · rw [if_neg h1]
        by_cases h2 : (analyzeLiteral cfg l s).1 = true
        · rw [if_pos h2, if_pos (Or.inl h2)]
          exact (StLF.ofTrue ((hlit.1.trans hd.1).trans (stInv_height _ _).toL)).seq
            ((IH (.jblock c.body) _).seq (IH (.jcases valueType rest _) _))
        · rw [if_neg h2]
          have hb : (analyzeLiteral cfg l s).1 = false := by simpa using h2
          refine ⟨?_, fun _ => ?_⟩
          · exact ((((hlit.1.trans hd.1).trans (stInv_height _ _).toL).trans
              (stL_iteCrash _ _)).trans
              ((IH (.jblock c.body) _).1.trans (IH (.jcases valueType rest seen) _).1))
          · exact ((((hlit.2 hb).growRight hd.1.1).growRight (stInv_height _ _).toL.1).growRight
              (stL_iteCrash _ _).1).growRight
              ((IH (.jblock c.body) _).1.trans (IH (.jcases valueType rest seen) _).1).1

theorem walkL_jcall (cfg : Config) (n : Nat) (fname : Identifier) (args : List Expression)
    (loc : Nat) (s : St) (IH : WalkIH cfg n) :
    StLF s (walk cfg (n + 1) (.jcall fname args loc) s).1
      (walk cfg (n + 1) (.jcall fname args loc) s).2.2 := by
  simp only [walk]
  set s0 := (if fname.name = "" then setCrashed s else s) with hs0
  have h0 : StL s s0 := by rw [hs0]; exact stL_iteCrashPre _ s
  have hres := (resolveCallee_invF cfg fname s0).toLF
  rcases hsucc : (resolveCallee cfg fname s0).2.2.1 with _ | _
  · simp only [hsucc, Bool.false_eq_true, if_false, Bool.false_and]
    have hargs := IH (.jargs fname.loc (resolveCallee cfg fname s0).2.1 args)
      (resolveCallee cfg fname s0).2.2.2
    exact StLF.finish cfg _ _ _
      ⟨(h0.trans hres.1).trans hargs.1,
        fun _ => (errStrict.growLeft h0.1 (hres.2 hsucc)).growRight hargs.1.1⟩
  · rcases hsig : (resolveCallee cfg fname s0).1 with _ | sg
    · simp only [hsucc, hsig, eq_self_iff_true, if_true, Bool.true_and]
      have hargs := IH (.jargs fname.loc (resolveCallee cfg fname s0).2.1 args)
        (setCrashed (resolveCallee cfg fname s0).2.2.2)
      have base : StL s (setCrashed (resolveCallee cfg fname s0).2.2.2) :=
        (h0.trans hres.1).trans (setCrashed_inv _).toL
      rcases hra : (walk cfg n (.jargs fname.loc (resolveCallee cfg fname s0).2.1 args)
          (setCrashed (resolveCallee cfg fname s0).2.2.2)).1 with _ | _
      · simp only [hra, Bool.false_eq_true, if_false]
        exact StLF.finish cfg _ _ _
          ⟨base.trans hargs.1, fun _ => errStrict.growLeft base.1 (hargs.2 hra)⟩
      · simp only [hra, eq_self_iff_true, if_true]
        exact StLF.finish cfg _ _ _
          (StLF.ofTrue ((base.trans hargs.1).trans (setCrashed_inv _).toL))
    · simp only [hsucc, hsig, eq_self_iff_true, if_true, Bool.true_and]
      by_cases hlen : args.length = sg.1.length
      · simp only [hlen, ne_eq, eq_self_iff_true, not_true, if_false, Bool.true_and]
        have hargs := IH (.jargs fname.loc (resolveCallee cfg fname s0).2.1 args)
          (resolveCallee cfg fname s0).2.2.2
        have base : StL s (resolveCallee cfg fname s0).2.2.2 := h0.trans hres.1
        rcases hra : (walk cfg n (.jargs fname.loc (resolveCallee cfg fname s0).2.1 args)
            (resolveCallee cfg fname s0).2.2.2).1 with _ | _
        · simp only [hra, Bool.false_eq_true, if_false]
          exact StLF.finish cfg _ _ _
            ⟨base.trans hargs.1, fun _ => errStrict.growLeft base.1 (hargs.2 hra)⟩
        · simp only [hra, eq_self_iff_true, if_true]
          exact StLF.finish cfg _ _ _
            (StLF.pre ((base.trans hargs.1).trans (stL_iteCrash _ _))
              (checkParamTypes_inv sg.1 _ _ _).toLF)
      · simp only [ne_eq, hlen, not_false_iff, if_true]
        have hargs := IH (.jargs fname.loc (resolveCallee cfg fname s0).2.1 args)
          (reportError (resolveCallee cfg fname s0).2.2.2 .typeErr fname.loc
            ("Function expects " ++ toString sg.1.length ++ " arguments but got "
              ++ toString args.length ++ "."))
        exact StLF.finish cfg _ _ _
          ⟨((h0.trans hres.1).trans (reportError_inv ..).toL).trans hargs.1,
            fun _ => ((errStrict.growLeft (h0.trans hres.1).1
              (reportError_strict ..)).growRight hargs.1.1)⟩

theorem declare_tail (cfg : Config) (vars : List TypedName) {s mid : St} {b : Bool}
    (h : StLF s b mid) (loc : Nat) :
    StLF s (declareVariables cfg vars mid.typeOfCurrentExpression b mid).1
      (recordHeight (declareVariables cfg vars mid.typeOfCurrentExpression b mid).2 loc) := by
  have hdv := declareVariables_inv cfg vars mid.typeOfCurrentExpression b mid
  refine ⟨(h.1.trans hdv.1.toL).trans (recordHeight_inv ..).toL, fun hb => ?_⟩
  rcases hdv.2 hb with hbb | hs
  · exact ((h.2 hbb).growRight hdv.1.toL.1).growRight (recordHeight_inv ..).toL.1
  · exact (errStrict.growLeft h.1.1 hs).growRight (recordHeight_inv ..).toL.1

theorem walkL_exprStmt (cfg : Config) (n : Nat) (e : Expression) (loc : Nat) (s : St)
    (IH : WalkIH cfg n) :
    StLF s (walk cfg (n + 1) (.jstmt (.exprStmt e loc)) s).1
      (walk cfg (n + 1) (.jstmt (.exprStmt e loc)) s).2.2 := by
  simp only [walk]
  have hr := IH (.jexpr e) s
  split
  · exact ⟨(hr.1.trans (reportError_inv ..).toL).trans (recordHeight_inv ..).toL,
      fun _ => (errStrict.growLeft hr.1.1 (reportError_strict ..)).growRight
        (recordHeight_inv ..).toL.1⟩
  · exact hr.post (recordHeight_inv ..).toL

theorem walkL_assign (cfg : Config) (n : Nat) (targets : List Identifier) (value : Expression)
    (loc : Nat) (s : St) (IH : WalkIH cfg n) :
    StLF s (walk cfg (n + 1) (.jstmt (.assign targets value loc)) s).1
      (walk cfg (n + 1) (.jstmt (.assign targets value loc)) s).2.2 := by
  simp only [walk]
  set s0 := (if 1 ≤ targets.length then s else setCrashed s) with hs0
  have h0 : StL s s0 := by rw [hs0]; exact stL_iteCrash _ s
  have hr := IH (.jexpr value) s0
  split
  · exact ⟨(h0.trans hr.1).trans (reportError_inv ..).toL,
      fun _ => errStrict.growLeft (h0.trans hr.1).1 (reportError_strict ..)⟩
  · have hAT := assignTargets_inv cfg targets
      (walk cfg n (.jexpr value) s0).2.2.typeOfCurrentExpression
      (walk cfg n (.jexpr value) s0).1 (walk cfg n (.jexpr value) s0).2.2
    refine ⟨((h0.trans hr.1).trans hAT.1.toL).trans (recordHeight_inv ..).toL, fun hb => ?_⟩
    rcases hAT.2 hb with h | h
    · exact (((errStrict.growLeft h0.1 (hr.2 h)).growRight hAT.1.toL.1)).growRight
        (recordHeight_inv ..).toL.1
    · exact (errStrict.growLeft (h0.trans hr.1).1 h).growRight (recordHeight_inv ..).toL.1

theorem walkL_varDecl (cfg : Config) (n : Nat) (vars : List TypedName)
    (val : Option Expression) (loc : Nat) (s : St) (IH : WalkIH cfg n) :
    StLF s (walk cfg (n + 1) (.jstmt (.varDecl vars val loc)) s).1
      (walk cfg (n + 1) (.jstmt (.varDecl vars val loc)) s).2.2 := by
  rcases hresv : cfg.resolver with _ | rv <;> rcases val with _ | v <;>
    simp only [walk, hresv]
  · have hmid : StLF s true { s with stackHeight := s.stackHeight + (vars.length : Int) } :=
      StLF.ofTrue (stInv_height s _).toL
    exact declare_tail cfg vars hmid loc
  · have hr := IH (.jexpr v) s
    split
    · exact ⟨(hr.1.trans (reportError_inv ..).toL).trans (stInv_height _ _).toL,
        fun _ => (errStrict.growLeft hr.1.1 (reportError_strict ..)).growRight
          (stInv_height _ _).toL.1⟩
    · exact declare_tail cfg vars hr loc
  · have hmid : StLF s true
        { notifyResolverDecls rv vars (insideFunction s.scopeChain) s with
          stackHeight := (notifyResolverDecls rv vars (insideFunction s.scopeChain) s).stackHeight
            + (vars.length : Int) } :=
      StLF.ofTrue ((notifyResolverDecls_inv rv vars _ s).toL.trans (stInv_height _ _).toL)
    exact declare_tail cfg vars hmid loc
  · have h0 : StL s (notifyResolverDecls rv vars (insideFunction s.scopeChain) s) :=
      (notifyResolverDecls_inv rv vars _ s).toL
    have hr := IH (.jexpr v) (notifyResolverDecls rv vars (insideFunction s.scopeChain) s)
    split
    · exact ⟨((h0.trans hr.1).trans (reportError_inv ..).toL).trans (stInv_height _ _).toL,
        fun _ => (errStrict.growLeft (h0.trans hr.1).1 (reportError_strict ..)).growRight
          (stInv_height _ _).toL.1⟩
    · exact declare_tail cfg vars (StLF.pre h0 hr) loc

theorem walkL_funDef (cfg : Config) (n : Nat) (fname : String) (params rets : List TypedName)
    (body : Block) (loc : Nat) (s : St) (IH : WalkIH cfg n) :
    StLF s (walk cfg (n + 1) (.jstmt (.funDef fname params rets body loc)) s).1
      (walk cfg (n + 1) (.jstmt (.funDef fname params rets body loc)) s).2.2 := by
  simp only [walk]
  exact StLF.pre
    ((stL_iteCrashPre (fname = "") s).trans
      ((activateAll_inv cfg (virtualScopeOf params rets loc).sid (params ++ rets) _).toL.trans
        (stL_heightChainSet _ _ _)))
    ((IH (.jblock body) _).post
      ((stL_heightChainSet _ _ _).trans (recordHeight_inv ..).toL))

theorem walkL_ifStmt (cfg : Config) (n : Nat) (cond : Expression) (body : Block) (loc : Nat)
    (s : St) (IH : WalkIH cfg n) :
    StLF s (walk cfg (n + 1) (.jstmt (.ifStmt cond body loc)) s).1
      (walk cfg (n + 1) (.jstmt (.ifStmt cond body loc)) s).2.2 := by
  simp only [walk]
  have hr := IH (.jexpectExpr cond) s
  rcases hb : (walk cfg n (.jexpectExpr cond) s).1 with _ | _
  · simp only [Bool.false_eq_true, if_false, Bool.false_and]
    refine ⟨?_, fun _ => ?_⟩
    · exact ((hr.1.trans (stInv_height _ _).toL).trans (IH (.jblock body) _).1).trans
        (recordHeight_inv ..).toL
    · exact (((hr.2 hb).growRight (stInv_height _ _).toL.1).growRight
        (IH (.jblock body) _).1.1).growRight (recordHeight_inv ..).toL.1
  · simp only [eq_self_iff_true, if_true]
    exact (((StLF.pre (hr.1.trans (typeAt0_inv cfg _).toL)
        (expectType_invF _ _ _ _).toLF).post (stInv_height _ _).toL).seq
      (IH (.jblock body) _)).post (recordHeight_inv ..).toL

theorem walkL_switch (cfg : Config) (n : Nat) (scrutinee : Expression) (cs : List SwitchCase)
    (loc : Nat) (s : St) (IH : WalkIH cfg n) :
    StLF s (walk cfg (n + 1) (.jstmt (.switchStmt scrutinee cs loc)) s).1
      (walk cfg (n + 1) (.jstmt (.switchStmt scrutinee cs loc)) s).2.2 := by
  simp only [walk]
  have hr := IH (.jexpectExpr scrutinee) s
  rcases hb : (walk cfg n (.jexpectExpr scrutinee) s).1 with _ | _
  · simp only [Bool.false_eq_true, if_false, Bool.false_and]
    refine ⟨?_, fun _ => ?_⟩
    · exact (((hr.1.trans (checkCaseTypes_inv _ cs _).1.toL).trans
        (IH (.jcases _ cs []) _).1).trans (stInv_height _ _).toL).trans (recordHeight_inv ..).toL
    · exact ((((hr.2 hb).growRight (checkCaseTypes_inv _ cs _).1.toL.1).growRight
        (IH (.jcases _ cs []) _).1.1).growRight (stInv_height _ _).toL.1).growRight
        (recordHeight_inv ..).toL.1
  · simp only [eq_self_iff_true, if_true, Bool.true_and]
    exact ((StLF.pre (hr.1.trans (typeAt0_inv cfg _).toL)
        (checkCaseTypes_inv _ cs _).toLF).seq
      (IH (.jcases _ cs []) _)).post
      ((stInv_height _ _).toL.trans (recordHeight_inv ..).toL)

set_option maxHeartbeats 4000000 in
theorem walkL_forLoop (cfg : Config) (n : Nat) (pre : Block) (cond : Expression)
    (post body : Block) (loc : Nat) (s : St) (IH : WalkIH cfg n) :
    StLF s (walk cfg (n + 1) (.jstmt (.forLoop pre cond post body loc)) s).1
      (walk cfg (n + 1) (.jstmt (.forLoop pre cond post body loc)) s).2.2 := by
  simp only [walk]
  have hpre := IH (.jblock pre) s
  have hcond := IH (.jexpectExpr cond)
    (forLoopCondState pre (walk cfg n (.jblock pre) s).2.2)
  rcases hb : (walk cfg n (.jexpectExpr cond)
      (forLoopCondState pre (walk cfg n (.jblock pre) s).2.2)).1 with _ | _
  · simp only [Bool.false_eq_true, if_false]
    set sPre := walk cfg n (.jblock pre) s with hsPre
    set sCond := walk cfg n (.jexpectExpr cond) (forLoopCondState pre sPre.2.2) with hsCond
    have hcondF : StLF (forLoopCondState pre sPre.2.2) false sCond.2.2 :=
      hcond.flag (fun _ => hb)
    set st3 := ({ errors := sCond.2.2.errors, stackHeight := sCond.2.2.stackHeight - 1, typeOfCurrentExpression := sCond.2.2.typeOfCurrentExpression, activeVariables := sCond.2.2.activeVariables, scopeChain := sCond.2.2.scopeChain, currentForLoop := some loc, stackHeightInfo := sCond.2.2.stackHeightInfo, crashed := sCond.2.2.crashed } : St) with hst3
    have hmid : StL sCond.2.2 st3 := by
      rw [hst3]
      exact ⟨⟨[], by simp⟩, ⟨[], by simp⟩, id⟩
    have hbody := IH (.jblock body) st3
    have hpost := IH (.jblock post) (walk cfg n (.jblock body) st3).2.2
    refine ((((hpre.seq (StLF.pre (stL_forLoopCondState pre sPre.2.2) hcondF)).post
      hmid).seq hbody).seq hpost).post ?_
    exact ⟨⟨[], by simp [recordHeight]⟩, ⟨[], by simp [recordHeight]⟩,
      fun h => by simpa [recordHeight] using h⟩
  · simp only [eq_self_iff_true, if_true]
    set sPre := walk cfg n (.jblock pre) s with hsPre
    set sCond := walk cfg n (.jexpectExpr cond) (forLoopCondState pre sPre.2.2) with hsCond
    have hET := (expectType_invF cfg.dialect.boolType (typeAt0 cfg sCond.2.2).1 cond.loc
      (typeAt0 cfg sCond.2.2).2).toLF
    set rET := expectType cfg.dialect.boolType (typeAt0 cfg sCond.2.2).1 cond.loc
      (typeAt0 cfg sCond.2.2).2 with hrET
    have hcd : StLF (forLoopCondState pre sPre.2.2) rET.1 rET.2 :=
      StLF.pre (hcond.1.trans (typeAt0_inv cfg sCond.2.2).toL) hET
    set st3 := ({ errors := rET.2.errors, stackHeight := rET.2.stackHeight - 1, typeOfCurrentExpression := rET.2.typeOfCurrentExpression, activeVariables := rET.2.activeVariables, scopeChain := rET.2.scopeChain, currentForLoop := some loc, stackHeightInfo := rET.2.stackHeightInfo, crashed := rET.2.crashed } : St) with hst3
    have hmid : StL rET.2 st3 := by
      rw [hst3]
      exact ⟨⟨[], by simp⟩, ⟨[], by simp⟩, id⟩
    have hbody := IH (.jblock body) st3
    have hpost := IH (.jblock post) (walk cfg n (.jblock body) st3).2.2
    refine ((((hpre.seq hcd).post hmid).seq hbody).seq hpost).post ?_
    exact ⟨⟨[], by simp [recordHeight]⟩, ⟨[], by simp [recordHeight]⟩,
      fun h => by simpa [recordHeight] using h⟩

theorem walk_invL (cfg : Config) : ∀ (n : Nat) (j : Job) (s : St),
    StLF s (walk cfg n j s).1 (walk cfg n j s).2.2
  | 0, _, s => by
    simp only [walk]
    exact StLF.ofTrue (setCrashed_inv s).toL
  | n + 1, .jexpr e, s => walkL_jexpr cfg n e s (fun j t => walk_invL cfg n j t)
  | n + 1, .jexpectExpr e, s => walkL_jexpectExpr cfg n e s (fun j t => walk_invL cfg n j t)
  | n + 1, .jargs l nl args, s => walkL_jargs cfg n l nl args s (fun j t => walk_invL cfg n j t)
  | n + 1, .jcall f args loc, s => walkL_jcall cfg n f args loc s (fun j t => walk_invL cfg n j t)
  | n + 1, .jstmt stm, s => by
    rcases stm with ⟨e, loc⟩ | ⟨ts, v, loc⟩ | ⟨vs, v, loc⟩ | ⟨f, ps, rs, b, loc⟩ |
      ⟨c, b, loc⟩ | ⟨sc, cs, loc⟩ | ⟨p, c, po, b, loc⟩ | b | loc | loc | loc
    · exact walkL_exprStmt cfg n e loc s (fun j t => walk_invL cfg n j t)
    · exact walkL_assign cfg n ts v loc s (fun j t => walk_invL cfg n j t)
    · exact walkL_varDecl cfg n vs v loc s (fun j t => walk_invL cfg n j t)
    · exact walkL_funDef cfg n f ps rs b loc s (fun j t => walk_invL cfg n j t)
    · exact walkL_ifStmt cfg n c b loc s (fun j t => walk_invL cfg n j t)
    · exact walkL_switch cfg n sc cs loc s (fun j t => walk_invL cfg n j t)
    · exact walkL_forLoop cfg n p c po b loc s (fun j t => walk_invL cfg n j t)
    · simpa only [walk] using walk_invL cfg n (.jblock b) s
    · simp only [walk]
      exact StLF.ofTrue (recordHeight_inv s loc).toL
    · simp only [walk]
      exact StLF.ofTrue (recordHeight_inv s loc).toL
    · simp only [walk]
      exact StLF.ofTrue (recordHeight_inv s loc).toL
  | n + 1, .jstmts ss, s => walkL_jstmts cfg n ss s (fun j t => walk_invL cfg n j t)
  | n + 1, .jblock b, s => walkL_jblock cfg n b s (fun j t => walk_invL cfg n j t)
  | n + 1, .jcases vt cs seen, s => walkL_jcases cfg n vt cs seen s (fun j t => walk_invL cfg n j t)

/-- Scope-chain / for-loop-marker preservation: both fields of the final state
equal those of the initial state. -/
def ChF (a b : St) : Prop :=
  b.scopeChain = a.scopeChain ∧ b.currentForLoop = a.currentForLoop

def ChF.rfl (a : St) : ChF a a := ⟨Eq.refl _, Eq.refl _⟩

def ChF.trans {a b c : St} (h1 : ChF a b) (h2 : ChF b c) : ChF a c :=
  ⟨h2.1.trans h1.1, h2.2.trans h1.2⟩

theorem StInv.toC {a b : St} (h : StInv a b) : ChF a b :=
  ⟨h.2.2.1, h.2.2.2.1⟩

@[simp] theorem reportError_scopeChain (s : St) (k : ErrKind) (l : Nat) (m : String) :
    (reportError s k l m).scopeChain = s.scopeChain := Eq.refl _
@[simp] theorem reportError_currentForLoop (s : St) (k : ErrKind) (l : Nat) (m : String) :
    (reportError s k l m).currentForLoop = s.currentForLoop := Eq.refl _
@[simp] theorem setCrashed_scopeChain (s : St) :
    (setCrashed s).scopeChain = s.scopeChain := Eq.refl _
@[simp] theorem setCrashed_currentForLoop (s : St) :
    (setCrashed s).currentForLoop = s.currentForLoop := Eq.refl _
@[simp] theorem recordHeight_scopeChain (s : St) (l : Nat) :
    (recordHeight s l).scopeChain = s.scopeChain := Eq.refl _
@[simp] theorem recordHeight_currentForLoop (s : St) (l : Nat) :
    (recordHeight s l).currentForLoop = s.currentForLoop := Eq.refl _
@[simp] theorem forLoopCondState_currentForLoop (b : Block) (s : St) :
    (forLoopCondState b s).currentForLoop = s.currentForLoop := Eq.refl _
@[simp] theorem typeAt0_scopeChain (cfg : Config) (s : St) :
    (typeAt0 cfg s).2.scopeChain = s.scopeChain := (typeAt0_inv cfg s).2.2.1
@[simp] theorem typeAt0_currentForLoop (cfg : Config) (s : St) :
    (typeAt0 cfg s).2.currentForLoop = s.currentForLoop := (typeAt0_inv cfg s).2.2.2.1
@[simp] theorem expectType_scopeChain (e g : String) (l : Nat) (s : St) :
    (expectType e g l s).2.scopeChain = s.scopeChain := (expectType_inv e g l s).1.2.2.1
@[simp] theorem expectType_currentForLoop (e g : String) (l : Nat) (s : St) :
    (expectType e g l s).2.currentForLoop = s.currentForLoop :=
  (expectType_inv e g l s).1.2.2.2.1
@[simp] theorem expectDeposit_scopeChain (d o : Int) (l : Nat) (s : St) :
    (expectDeposit d o l s).2.scopeChain = s.scopeChain := (expectDeposit_inv d o l s).1.2.2.1
@[simp] theorem expectDeposit_currentForLoop (d o : Int) (l : Nat) (s : St) :
    (expectDeposit d o l s).2.currentForLoop = s.currentForLoop :=
  (expectDeposit_inv d o l s).1.2.2.2.1
@[simp] theorem analyzeLiteral_scopeChain (cfg : Config) (l : Literal) (s : St) :
    (analyzeLiteral cfg l s).2.scopeChain = s.scopeChain := (analyzeLiteral_inv cfg l s).1.2.2.1
@[simp] theorem analyzeLiteral_currentForLoop (cfg : Config) (l : Literal) (s : St) :
    (analyzeLiteral cfg l s).2.currentForLoop = s.currentForLoop :=
  (analyzeLiteral_inv cfg l s).1.2.2.2.1
@[simp] theorem analyzeIdentifier_scopeChain (cfg : Config) (i : Identifier) (s : St) :
    (analyzeIdentifier cfg i s).2.scopeChain = s.scopeChain :=
  (analyzeIdentifier_inv cfg i s).1.2.2.1
@[simp] theorem analyzeIdentifier_currentForLoop (cfg : Config) (i : Identifier) (s : St) :
    (analyzeIdentifier cfg i s).2.currentForLoop = s.currentForLoop :=
  (analyzeIdentifier_inv cfg i s).1.2.2.2.1
@[simp] theorem checkLiteralArgument_scopeChain (cfg : Config) (l : Nat) (a : Expression)
    (s : St) : (checkLiteralArgument cfg l a s).scopeChain = s.scopeChain :=
  (checkLiteralArgument_inv cfg l a s).2.2.1
@[simp] theorem checkLiteralArgument_currentForLoop (cfg : Config) (l : Nat) (a : Expression)
    (s : St) : (checkLiteralArgument cfg l a s).currentForLoop = s.currentForLoop :=
  (checkLiteralArgument_inv cfg l a s).2.2.2.1
@[simp] theorem activateAll_scopeChain (cfg : Config) (vs : Nat) (vars : List TypedName)
    (s : St) : (activateAll cfg vs vars s).scopeChain = s.scopeChain :=
  (activateAll_inv cfg vs vars s).2.2.1
@[simp] theorem activateAll_currentForLoop (cfg : Config) (vs : Nat) (vars : List TypedName)
    (s : St) : (activateAll cfg vs vars s).currentForLoop = s.currentForLoop :=
  (activateAll_inv cfg vs vars s).2.2.2.1
@[simp] theorem notifyResolverDecls_scopeChain
    (r : Identifier → IdentifierContext → Bool → Option Nat × List Diag)
    (vars : List TypedName) (f : Bool) (s : St) :
    (notifyResolverDecls r vars f s).scopeChain = s.scopeChain :=
  (notifyResolverDecls_inv r vars f s).2.2.1
@[simp] theorem notifyResolverDecls_currentForLoop
    (r : Identifier → IdentifierContext → Bool → Option Nat × List Diag)
    (vars : List TypedName) (f : Bool) (s : St) :
    (notifyResolverDecls r vars f s).currentForLoop = s.currentForLoop :=
  (notifyResolverDecls_inv r vars f s).2.2.2.1
@[simp] theorem declareVariables_scopeChain (cfg : Config) (vars : List TypedName)
    (tys : List String) (b : Bool) (s : St) :
    (declareVariables cfg vars tys b s).2.scopeChain = s.scopeChain :=
  (declareVariables_inv cfg vars tys b s).1.2.2.1
@[simp] theorem declareVariables_currentForLoop (cfg : Config) (vars : List TypedName)
    (tys : List String) (b : Bool) (s : St) :
    (declareVariables cfg vars tys b s).2.currentForLoop = s.currentForLoop :=
  (declareVariables_inv cfg vars tys b s).1.2.2.2.1
@[simp] theorem assignTargets_scopeChain (cfg : Config) (vars : List Identifier)
    (tys : List String) (b : Bool) (s : St) :
    (assignTargets cfg vars tys b s).2.scopeChain = s.scopeChain :=
  (assignTargets_inv cfg vars tys b s).1.2.2.1
@[simp] theorem assignTargets_currentForLoop (cfg : Config) (vars : List Identifier)
    (tys : List String) (b : Bool) (s : St) :
    (assignTargets cfg vars tys b s).2.currentForLoop = s.currentForLoop :=
  (assignTargets_inv cfg vars tys b s).1.2.2.2.1
@[simp] theorem checkParamTypes_scopeChain (ps ats : List String) (ls : List Nat) (s : St) :
    (checkParamTypes ps ats ls s).2.scopeChain = s.scopeChain :=
  (checkParamTypes_inv ps ats ls s).1.2.2.1
@[simp] theorem checkParamTypes_currentForLoop (ps ats : List String) (ls : List Nat)
    (s : St) : (checkParamTypes ps ats ls s).2.currentForLoop = s.currentForLoop :=
  (checkParamTypes_inv ps ats ls s).1.2.2.2.1
@[simp] theorem checkCaseTypes_scopeChain (vt : String) (cs : List SwitchCase) (s : St) :
    (checkCaseTypes vt cs s).2.scopeChain = s.scopeChain :=
  (checkCaseTypes_inv vt cs s).1.2.2.1
@[simp] theorem checkCaseTypes_currentForLoop (vt : String) (cs : List SwitchCase) (s : St) :
    (checkCaseTypes vt cs s).2.currentForLoop = s.currentForLoop :=
  (checkCaseTypes_inv vt cs s).1.2.2.2.1
@[simp] theorem funCallFinish_scopeChain (cfg : Config) (rt : Option (List String)) (b : Bool)
    (na loc : Nat) (s : St) : (funCallFinish cfg rt b na loc s).2.scopeChain = s.scopeChain :=
  (funCallFinish_inv cfg rt b na loc s).1.2.2.1
@[simp] theorem funCallFinish_currentForLoop (cfg : Config) (rt : Option (List String))
    (b : Bool) (na loc : Nat) (s : St) :
    (funCallFinish cfg rt b na loc s).2.currentForLoop = s.currentForLoop :=
  (funCallFinish_inv cfg rt b na loc s).1.2.2.2.1

theorem chF_iteCrash (c : Prop) [Decidable c] (s : St) :
    ChF s (if c then s else setCrashed s) := by
  split
  · exact ChF.rfl s
  · exact (setCrashed_inv s).toC

theorem chF_iteCrashPre (c : Prop) [Decidable c] (s : St) :
    ChF s (if c then setCrashed s else s) := by
  split
  · exact (setCrashed_inv s).toC
  · exact ChF.rfl s

set_option maxHeartbeats 4000000 in
theorem walk_pres (cfg : Config) : ∀ (n : Nat) (j : Job) (s : St),
    ChF s (walk cfg n j s).2.2
  | 0, _, s => by
    simp only [walk]
    exact (setCrashed_inv s).toC
  | n + 1, .jexpr e, s => by
    rcases e with l | i | ⟨f, args, loc⟩
    · simpa only [walk] using (analyzeLiteral_inv cfg l s).1.toC
    · simpa only [walk] using (analyzeIdentifier_inv cfg i s).1.toC
    · simpa only [walk] using walk_pres cfg n (.jcall f args loc) s
  | n + 1, .jexpectExpr e, s => by
    simp only [walk]
    split
    · exact (walk_pres cfg n (.jexpr e) s).trans
        (expectDeposit_inv 1 s.stackHeight e.loc _).1.toC
    · exact walk_pres cfg n (.jexpr e) s
  | n + 1, .jargs l0 nl args, s => by
    rcases args with _ | ⟨a, rest⟩
    · simp only [walk]
      exact ChF.rfl s
    · simp only [walk]
      have hcl : ∀ t : St, ChF t (if nl then checkLiteralArgument cfg l0 a t else t) := by
        intro t
        cases nl
        · simpa using ChF.rfl t
        · simpa using (checkLiteralArgument_inv cfg l0 a t).toC
      split
      · exact ((walk_pres cfg n (.jargs l0 nl rest) s).trans
          (walk_pres cfg n (.jexpectExpr a) _)).trans
          ((typeAt0_inv cfg _).toC.trans (hcl _))
      · exact (walk_pres cfg n (.jargs l0 nl rest) s).trans (walk_pres cfg n (.jexpectExpr a) _)
  | n + 1, .jcall fname args loc, s => by
    simp only [walk]
    set s0 := (if fname.name = "" then setCrashed s else s) with hs0
    have h0 : ChF s s0 := by rw [hs0]; exact chF_iteCrashPre _ s
    have hres := (resolveCallee_inv cfg fname s0).1.toC
    rcases hsucc : (resolveCallee cfg fname s0).2.2.1 with _ | _
    · simp only [hsucc, Bool.false_eq_true, if_false, Bool.false_and]
      exact ((h0.trans hres).trans
        (walk_pres cfg n (.jargs fname.loc _ args) _)).trans
        (funCallFinish_inv cfg _ _ _ _ _).1.toC
    · rcases hsig : (resolveCallee cfg fname s0).1 with _ | sg
      · simp only [hsucc, hsig, eq_self_iff_true, if_true, Bool.true_and]
        rcases hra : (walk cfg n (.jargs fname.loc (resolveCallee cfg fname s0).2.1 args)
            (setCrashed (resolveCallee cfg fname s0).2.2.2)).1 with _ | _
        · simp only [hra, Bool.false_eq_true, if_false]
          exact (((h0.trans hres).trans (setCrashed_inv _).toC).trans
            (walk_pres cfg n (.jargs fname.loc _ args) _)).trans
            (funCallFinish_inv cfg _ _ _ _ _).1.toC
        · simp only [hra, eq_self_iff_true, if_true]
          exact ((((h0.trans hres).trans (setCrashed_inv _).toC).trans
            (walk_pres cfg n (.jargs fname.loc _ args) _)).trans
            (setCrashed_inv _).toC).trans (funCallFinish_inv cfg _ _ _ _ _).1.toC
      · simp only [hsucc, hsig, eq_self_iff_true, if_true, Bool.true_and]
        by_cases hlen : args.length = sg.1.length
        · simp only [hlen, ne_eq, eq_self_iff_true, not_true, if_false, Bool.true_and]
          rcases hra : (walk cfg n (.jargs fname.loc (resolveCallee cfg fname s0).2.1 args)
              (resolveCallee cfg fname s0).2.2.2).1 with _ | _
          · simp only [hra, Bool.false_eq_true, if_false]
            exact ((h0.trans hres).trans
              (walk_pres cfg n (.jargs fname.loc _ args) _)).trans
              (funCallFinish_inv cfg _ _ _ _ _).1.toC
          · simp only [hra, eq_self_iff_true, if_true]
            exact ((((h0.trans hres).trans
              (walk_pres cfg n (.jargs fname.loc _ args) _)).trans
              (chF_iteCrash _ _)).trans (checkParamTypes_inv sg.1 _ _ _).1.toC).trans
              (funCallFinish_inv cfg _ _ _ _ _).1.toC
        · simp only [ne_eq, hlen, not_false_iff, if_true, Bool.false_and,
            Bool.false_eq_true, if_false]
          exact (((h0.trans hres).trans (reportError_inv ..).toC).trans
            (walk_pres cfg n (.jargs fname.loc _ args) _)).trans
            (funCallFinish_inv cfg _ _ _ _ _).1.toC
  | n + 1, .jstmt stm, s => by
    rcases stm with ⟨e, lc⟩ | ⟨ts, v, lc⟩ | ⟨vs, v, lc⟩ | ⟨f, ps, rs, b, lc⟩ |
      ⟨c, b, lc⟩ | ⟨sc, cs, lc⟩ | ⟨p, c, po, b, lc⟩ | b | lc | lc | lc
    · simp only [walk]
      split
      · exact ((walk_pres cfg n (.jexpr e) s).trans (reportError_inv ..).toC).trans
          (recordHeight_inv ..).toC
      · exact (walk_pres cfg n (.jexpr e) s).trans (recordHeight_inv ..).toC
    · simp only [walk]
      set s0 := (if 1 ≤ ts.length then s else setCrashed s) with hs0
      have h0 : ChF s s0 := by rw [hs0]; exact chF_iteCrash _ s
      split
      · exact (h0.trans (walk_pres cfg n (.jexpr v) s0)).trans (reportError_inv ..).toC
      · exact ((h0.trans (walk_pres cfg n (.jexpr v) s0)).trans
          (assignTargets_inv cfg ts _ _ _).1.toC).trans (recordHeight_inv ..).toC
    · rcases hresv : cfg.resolver with _ | rv <;> rcases v with _ | vv <;>
        simp only [walk, hresv]
      · exact ((stInv_height s _).toC.trans
          (declareVariables_inv cfg vs _ _ _).1.toC).trans (recordHeight_inv ..).toC
      · split
        · exact ((walk_pres cfg n (.jexpr vv) s).trans (reportError_inv ..).toC).trans
            (stInv_height _ _).toC
        · exact ((walk_pres cfg n (.jexpr vv) s).trans
            (declareVariables_inv cfg vs _ _ _).1.toC).trans (recordHeight_inv ..).toC
      · exact (((notifyResolverDecls_inv rv vs _ s).toC.trans (stInv_height _ _).toC).trans
          (declareVariables_inv cfg vs _ _ _).1.toC).trans (recordHeight_inv ..).toC
      · split
        · exact (((notifyResolverDecls_inv rv vs _ s).toC.trans
            (walk_pres cfg n (.jexpr vv) _)).trans (reportError_inv ..).toC).trans
            (stInv_height _ _).toC
        · exact (((notifyResolverDecls_inv rv vs _ s).toC.trans
            (walk_pres cfg n (.jexpr vv) _)).trans
            (declareVariables_inv cfg vs _ _ _).1.toC).trans (recordHeight_inv ..).toC
    · constructor
      · simp only [walk, recordHeight_scopeChain, activateAll_scopeChain]
        split <;> rfl
      · simp only [walk, recordHeight_currentForLoop]
        rw [(walk_pres cfg n (.jblock b) _).2]
        simp only [activateAll_currentForLoop]
        split <;> rfl
    · simp only [walk]
      split
      · exact (((walk_pres cfg n (.jexpectExpr c) s).trans (typeAt0_inv cfg _).toC).trans
          ((expectType_inv _ _ _ _).1.toC.trans (stInv_height _ _).toC)).trans
          ((walk_pres cfg n (.jblock b) _).trans (recordHeight_inv ..).toC)
      · exact ((walk_pres cfg n (.jexpectExpr c) s).trans (stInv_height _ _).toC).trans
          ((walk_pres cfg n (.jblock b) _).trans (recordHeight_inv ..).toC)
    · simp only [walk]
      split
      · exact ((((walk_pres cfg n (.jexpectExpr sc) s).trans (typeAt0_inv cfg _).toC).trans
          (checkCaseTypes_inv _ cs _).1.toC).trans
          ((walk_pres cfg n (.jcases _ cs []) _).trans (stInv_height _ _).toC)).trans
          (recordHeight_inv ..).toC
      · exact (((walk_pres cfg n (.jexpectExpr sc) s).trans
          (checkCaseTypes_inv _ cs _).1.toC).trans
          ((walk_pres cfg n (.jcases _ cs []) _).trans (stInv_height _ _).toC)).trans
          (recordHeight_inv ..).toC
    · constructor
      · simp only [walk]
      · simp only [walk]
        split
        · simp only [expectType_currentForLoop, typeAt0_currentForLoop]
          rw [(walk_pres cfg n (.jexpectExpr c) _).2]
          simp only [forLoopCondState_currentForLoop]
          rw [(walk_pres cfg n (.jblock p) _).2]
        · rw [(walk_pres cfg n (.jexpectExpr c) _).2]
          simp only [forLoopCondState_currentForLoop]
          rw [(walk_pres cfg n (.jblock p) _).2]
    · simpa only [walk] using walk_pres cfg n (.jblock b) s
    · simpa only [walk] using (recordHeight_inv s lc).toC
    · simpa only [walk] using (recordHeight_inv s lc).toC
    · simpa only [walk] using (recordHeight_inv s lc).toC
  | n + 1, .jstmts ss, s => by
    rcases ss with _ | ⟨st1, rest⟩
    · simp only [walk]
      exact ChF.rfl s
    · simp only [walk]
      exact (walk_pres cfg n (.jstmt st1) s).trans (walk_pres cfg n (.jstmts rest) _)
  | n + 1, .jblock b, s => by
    constructor
    · simp only [walk]
    · simp only [walk, recordHeight_currentForLoop]
      split
      · simp only [reportError_currentForLoop]
        exact (walk_pres cfg n (.jstmts b.stmts) _).2
      · exact (walk_pres cfg n (.jstmts b.stmts) _).2
  | n + 1, .jcases vt cs seen, s => by
    rcases cs with _ | ⟨c, rest⟩
    · simp only [walk]
      exact ChF.rfl s
    · simp only [walk]
      rcases hcv : c.value with _ | l <;> simp only [hcv]
      · exact (walk_pres cfg n (.jblock c.body) s).trans
          (walk_pres cfg n (.jcases vt rest seen) _)
      · by_cases h1 : (analyzeLiteral cfg l s).1 = true ∧ valueOfLiteral l ∈ seen
        · rw [if_pos h1, if_pos (Or.inl h1.1)]
          exact (((((analyzeLiteral_inv cfg l s).1.toC.trans
            (expectDeposit_inv 1 s.stackHeight l.loc _).1.toC).trans
            (stInv_height _ _).toC).trans (reportError_inv ..).toC).trans
            (walk_pres cfg n (.jblock c.body) _)).trans
            (walk_pres cfg n (.jcases vt rest seen) _)
        · rw [if_neg h1]
          by_cases h2 : (analyzeLiteral cfg l s).1 = true
          · rw [if_pos h2, if_pos (Or.inl h2)]
            exact ((((analyzeLiteral_inv cfg l s).1.toC.trans
              (expectDeposit_inv 1 s.stackHeight l.loc _).1.toC).trans
              (stInv_height _ _).toC).trans
              (walk_pres cfg n (.jblock c.body) _)).trans
              (walk_pres cfg n (.jcases vt rest _) _)
          · rw [if_neg h2]
            exact (((((analyzeLiteral_inv cfg l s).1.toC.trans
              (expectDeposit_inv 1 s.stackHeight l.loc _).1.toC).trans
              (stInv_height _ _).toC).trans (chF_iteCrash _ _)).trans
              (walk_pres cfg n (.jblock c.body) _)).trans
              (walk_pres cfg n (.jcases vt rest seen) _)

@[simp] theorem reportError_stackHeight (s : St) (k : ErrKind) (l : Nat) (m : String) :
    (reportError s k l m).stackHeight = s.stackHeight := Eq.refl _
@[simp] theorem reportError_stackHeightInfo (s : St) (k : ErrKind) (l : Nat) (m : String) :
    (reportError s k l m).stackHeightInfo = s.stackHeightInfo := Eq.refl _
@[simp] theorem reportError_typeOf (s : St) (k : ErrKind) (l : Nat) (m : String) :
    (reportError s k l m).typeOfCurrentExpression = s.typeOfCurrentExpression := Eq.refl _
@[simp] theorem setCrashed_stackHeight (s : St) :
    (setCrashed s).stackHeight = s.stackHeight := Eq.refl _
@[simp] theorem setCrashed_stackHeightInfo (s : St) :
    (setCrashed s).stackHeightInfo = s.stackHeightInfo := Eq.refl _
@[simp] theorem setCrashed_typeOf (s : St) :
    (setCrashed s).typeOfCurrentExpression = s.typeOfCurrentExpression := Eq.refl _
@[simp] theorem recordHeight_stackHeight (s : St) (l : Nat) :
    (recordHeight s l).stackHeight = s.stackHeight := Eq.refl _
@[simp] theorem recordHeight_stackHeightInfo (s : St) (l : Nat) :
    (recordHeight s l).stackHeightInfo = s.stackHeightInfo ++ [(l, s.stackHeight)] := Eq.refl _
@[simp] theorem expectValidType_stackHeight (cfg : Config) (ty : String) (l : Nat) (s : St) :
    (expectValidType cfg ty l s).stackHeight = s.stackHeight := by
  unfold expectValidType
  split <;> rfl
@[simp] theorem expectValidType_stackHeightInfo (cfg : Config) (ty : String) (l : Nat)
    (s : St) : (expectValidType cfg ty l s).stackHeightInfo = s.stackHeightInfo := by
  unfold expectValidType
  split <;> rfl

/-- The success flag of the literal handler depends only on the literal, not on
the incoming state. -/
theorem analyzeLiteral_flag_indep (cfg : Config) (l : Literal) (s t : St) :
    (analyzeLiteral cfg l s).1 = (analyzeLiteral cfg l t).1 := by
  simp only [analyzeLiteral]
  split_ifs <;> rfl

/-- The literal handler always pushes exactly one stack slot. -/
theorem analyzeLiteral_stackHeight (cfg : Config) (l : Literal) (s : St) :
    (analyzeLiteral cfg l s).2.stackHeight = s.stackHeight + 1 := by
  simp only [analyzeLiteral]
  split_ifs <;> simp

/-- On success the literal handler sets the current-expression type vector to
the literal type. -/
theorem analyzeLiteral_typeOf (cfg : Config) (l : Literal) (s : St)
    (h : (analyzeLiteral cfg l s).1 = true) :
    (analyzeLiteral cfg l s).2.typeOfCurrentExpression = [l.type] := by
  revert h
  simp only [analyzeLiteral]
  split_ifs <;> intro h
  · exact absurd h (by simp)
  · exact absurd h (by simp)
  all_goals rfl

/-- Expecting an expression that is a well-formed literal always succeeds and
leaves the literal handler state. -/
theorem jexpectExpr_lit (cfg : Config) (n : Nat) (l : Literal) (s : St)
    (h : (analyzeLiteral cfg l initialState).1 = true) :
    walk cfg (n + 1 + 1) (.jexpectExpr (.lit l)) s = (true, [], (analyzeLiteral cfg l s).2) := by
  simp only [walk]
  have hf : (analyzeLiteral cfg l s).1 = true :=
    (analyzeLiteral_flag_indep cfg l s initialState).trans h
  rw [if_pos hf]
  simp only [expectDeposit]
  have hne : ¬((analyzeLiteral cfg l s).2.stackHeight - s.stackHeight ≠ 1) := by
    rw [analyzeLiteral_stackHeight]
    omega
  rw [if_neg hne]

/-- First current-expression type of a state with a singleton type vector. -/
theorem typeAt0_eq (cfg : Config) (s : St) (t : String)
    (h : s.typeOfCurrentExpression = [t]) : typeAt0 cfg s = (t, s) := by
  unfold typeAt0
  rw [h]

/-- One-step unfolding of the argument walk on a nonempty argument list. -/
theorem walk_jargs_cons (cfg : Config) (n : Nat) (fl : Nat) (nl : Bool) (a : Expression)
    (args : List Expression) (s : St) :
    walk cfg (n + 1) (.jargs fl nl (a :: args)) s =
      (if (walk cfg n (.jexpectExpr a) (walk cfg n (.jargs fl nl args) s).2.2).1 then
        ((walk cfg n (.jargs fl nl args) s).1,
         (walk cfg n (.jargs fl nl args) s).2.1
           ++ [(typeAt0 cfg (walk cfg n (.jexpectExpr a)
                 (walk cfg n (.jargs fl nl args) s).2.2).2.2).1],
         if nl then checkLiteralArgument cfg fl a
             (typeAt0 cfg (walk cfg n (.jexpectExpr a)
               (walk cfg n (.jargs fl nl args) s).2.2).2.2).2
         else (typeAt0 cfg (walk cfg n (.jexpectExpr a)
               (walk cfg n (.jargs fl nl args) s).2.2).2.2).2)
      else (false, (walk cfg n (.jargs fl nl args) s).2.1,
        (walk cfg n (.jexpectExpr a) (walk cfg n (.jargs fl nl args) s).2.2).2.2)) := rfl

/-- Walking a list of well-formed literal call arguments succeeds and collects
their types in reverse order. -/
theorem jargs_literals (cfg : Config) :
    ∀ (n : Nat) (lits : List Literal) (fl : Nat) (s : St),
      lits.length + 2 ≤ n →
      (∀ l ∈ lits, (analyzeLiteral cfg l initialState).1 = true) →
      (walk cfg n (.jargs fl false (lits.map Expression.lit)) s).1 = true ∧
      (walk cfg n (.jargs fl false (lits.map Expression.lit)) s).2.1
        = (lits.map (fun l => l.type)).reverse
  | 0, lits, fl, s, hfuel, _ => absurd hfuel (by omega)
  | n + 1, [], fl, s, _, _ => by
    simp [walk]
  | n + 1, l :: rest, fl, s, hfuel, hall => by
    have hfuel2 : rest.length + 2 ≤ n := by
      simp only [List.length_cons] at hfuel
      omega
    rcases n with _ | n1
    · exact absurd hfuel2 (by omega)
    rcases n1 with _ | n2
    · exact absurd hfuel2 (by omega)
    have hrest := jargs_literals cfg (n2 + 1 + 1) rest fl s hfuel2
      (fun x hx => hall x (List.mem_cons_of_mem l hx))
    have hfl : (analyzeLiteral cfg l (walk cfg (n2 + 1 + 1)
        (.jargs fl false (List.map Expression.lit rest)) s).2.2).1 = true :=
      (analyzeLiteral_flag_indep cfg l _ initialState).trans
        (hall l (List.mem_cons_self l rest))
    simp only [List.map_cons]
    rw [walk_jargs_cons]
    rw [jexpectExpr_lit cfg n2 l _ (hall l (List.mem_cons_self l rest))]
    simp only [eq_self_iff_true, if_true]
    rw [typeAt0_eq cfg _ l.type (analyzeLiteral_typeOf cfg l _ hfl)]
    simp only [Bool.false_eq_true, if_false]
    refine ⟨hrest.1, ?_⟩
    simp [hrest.2]

/-- With matching lengths and enough locations, the pairwise parameter-type
check succeeds exactly when the two type lists are equal position by
position. -/
theorem checkParamTypes_true_iff :
    ∀ (ps ats : List String) (ls : List Nat) (s : St),
      ps.length = ats.length → ps.length ≤ ls.length →
      ((checkParamTypes ps ats ls s).1 = true ↔ ps = ats)
  | [], [], _, s, _, _ => by simp [checkParamTypes]
  | [], a :: ats, _, s, hlen, _ => by simp at hlen
  | p :: ps, [], _, s, hlen, _ => by simp at hlen
  | p :: ps, a :: ats, [], s, _, hls => by simp at hls
  | p :: ps, a :: ats, loc :: ls, s, hlen, hls => by
    simp only [checkParamTypes, expectType]
    split_ifs with hpa
    · simp only [Bool.true_and]
      rw [checkParamTypes_true_iff ps ats ls s (by simpa using hlen) (by simpa using hls)]
      simp [hpa]
    · simp [hpa]

/-- Walking never discards previously reported diagnostics. -/
theorem mem_errors_walk (cfg : Config) (n : Nat) (j : Job) (s : St) {d : Diag}
    (h : d ∈ s.errors) : d ∈ (walk cfg n j s).2.2.errors := by
  obtain ⟨u, e⟩ := (walk_invL cfg n j s).1.1
  rw [e]
  exact List.mem_append_left u h

theorem and_false_right {a b : Bool} (h : b = false) : (a && b) = false := by
  cases a <;> simp [h]

/-- Reaching a case whose literal value is already in the seen-cases set makes
the case walk fail and records the duplicate-case diagnostic at that case. -/
theorem jcases_dup (cfg : Config) (vt : String) (l' : Literal) (c' : SwitchCase)
    (hcv : c'.value = some l')
    (hsucc : (analyzeLiteral cfg l' initialState).1 = true) :
    ∀ (m : Nat) (cs₂ cs₃ : List SwitchCase) (seen : List Nat) (t : St),
      valueOfLiteral l' ∈ seen →
      cs₂.length + 1 ≤ m →
      (walk cfg m (.jcases vt (cs₂ ++ c' :: cs₃) seen) t).1 = false ∧
      (⟨ErrKind.declarationErr, c'.loc, "Duplicate case defined."⟩ : Diag)
        ∈ (walk cfg m (.jcases vt (cs₂ ++ c' :: cs₃) seen) t).2.2.errors
  | 0, cs₂, cs₃, seen, t, hmem, hf => absurd hf (by omega)
  | m + 1, [], cs₃, seen, t, hmem, _ => by
    have hfl : (analyzeLiteral cfg l' t).1 = true :=
      (analyzeLiteral_flag_indep cfg l' t initialState).trans hsucc
    simp only [walk, List.nil_append, hcv]
    rw [if_pos ⟨hfl, hmem⟩]
    refine ⟨rfl, ?_⟩
    exact mem_errors_walk cfg m _ _ (mem_errors_walk cfg m _ _ (by simp [reportError]))
  | m + 1, c0 :: cs₂, cs₃, seen, t, hmem, hf => by
    have hfb : cs₂.length + 1 ≤ m := by
      simp only [List.length_cons] at hf
      omega
    simp only [walk, List.cons_append]
    rcases hc0 : c0.value with _ | l0 <;> simp only [hc0]
    · exact ⟨and_false_right (jcases_dup cfg vt l' c' hcv hsucc m cs₂ cs₃ seen _ hmem hfb).1,
        (jcases_dup cfg vt l' c' hcv hsucc m cs₂ cs₃ seen _ hmem hfb).2⟩
    · split_ifs <;>
        refine ⟨and_false_right ?_, ?_⟩ <;>
        first
          | exact (jcases_dup cfg vt l' c' hcv hsucc m cs₂ cs₃ seen _ hmem hfb).1
          | exact (jcases_dup cfg vt l' c' hcv hsucc m cs₂ cs₃ seen _ hmem hfb).2
          | exact (jcases_dup cfg vt l' c' hcv hsucc m cs₂ cs₃
              (seen ++ [valueOfLiteral l0]) _ (List.mem_append_left _ hmem) hfb).1
          | exact (jcases_dup cfg vt l' c' hcv hsucc m cs₂ cs₃
              (seen ++ [valueOfLiteral l0]) _ (List.mem_append_left _ hmem) hfb).2

/-- C3: for every program, analyze returns true only if the error reporter
holds no errors, and whenever analyze returns false — including via the
fatal-capacity abort — the reporter holds at least one diagnostic. -/
theorem C3_rejection_has_diagnostic (cfg : Config) (fuel : Nat) (b : Block) :
    ((analyze cfg fuel b).1 = true → (analyze cfg fuel b).2.errors = []) ∧
    ((analyze cfg fuel b).1 = false → (analyze cfg fuel b).2.errors ≠ []) ∧
    (∀ (cap : Nat) (es : List Diag), reporterOverCapacity cap es = true → es ≠ []) := by
  refine ⟨?_, ?_, ?_⟩
  · simp only [analyze]
    split
    · intro h
      rw [Bool.and_eq_true] at h
      simpa using h.2
    · intro h
      exact absurd h (by simp)
  · simp only [analyze]
    split
    · intro h
      rcases hwf : (walk cfg fuel (.jblock b) initialState).1 with _ | _
      · obtain ⟨d, tl, he⟩ := (walk_invL cfg fuel (.jblock b) initialState).2 hwf
        have he2 : (walk cfg fuel (.jblock b) initialState).2.2.errors = d :: tl := by
          simpa [initialState] using he
        split <;> simp [setCrashed, he2]
      · intro hemp
        simp [hwf] at h hemp
        exact h hemp
    · rename_i hne
      intro _
      simpa using hne
  · intro cap es h
    rcases es with _ | ⟨d, tl⟩
    · simp [reporterOverCapacity] at h
    · simp

/-- C4 counterexample: after the analysis of a program whose first inner block
declares x and whose second inner block is an empty sibling, the analysis has
long left the block declaring x, yet x is still in the active-variable set —
closed-block variables are never erased from it. -/
theorem C4_counterexample :
    (analyze cfg0 20 prog4).1 = true ∧
    (analyze cfg0 20 prog4).2.activeVariables = [(13, "x")] ∧
    (analyze cfg0 20 prog4).2.crashed = false := by decide

/-- C4 (amended): across any walk step the active-variable set only grows by
appending; entries of closed scopes are never removed. -/
theorem C4_active_set_only_grows (cfg : Config) (n : Nat) (j : Job) (s : St) :
    ∃ u, (walk cfg n j s).2.2.activeVariables = s.activeVariables ++ u :=
  (walk_invL cfg n j s).1.2.1

/-- C7: the for-loop handler walks the condition, then the body, then the post
block, all inside the pre block's scope: the handler's result decomposes into
the pre walk, the condition check, the body walk at forLoopBodyState and the
post walk at the body walk's result state; the condition state, the body's
entry state and the post block's entry state all carry the pre block's scope
frame on top of the outer chain, the condition state with the pre scope's
variable count pushed back onto the stack height; and after the loop the stack
height, scope chain and current-for-loop marker are restored to their pre-loop
values. -/
theorem C7_for_loop_frame (cfg : Config) (n : Nat) (pre : Block) (cond : Expression)
    (post body : Block) (loc : Nat) (s : St) :
    walk cfg (n + 1) (.jstmt (.forLoop pre cond post body loc)) s
      = ((walk cfg n (.jblock pre) s).1 && (forLoopCondResult cfg n pre cond s).1
          && (walk cfg n (.jblock body) (forLoopBodyState cfg n pre cond loc s)).1
          && (walk cfg n (.jblock post)
              (walk cfg n (.jblock body) (forLoopBodyState cfg n pre cond loc s)).2.2).1,
         [],
         { recordHeight
             { (walk cfg n (.jblock post)
                 (walk cfg n (.jblock body) (forLoopBodyState cfg n pre cond loc s)).2.2).2.2
               with stackHeight := s.stackHeight } loc
           with scopeChain := s.scopeChain,
                currentForLoop := (forLoopCondResult cfg n pre cond s).2.currentForLoop }) ∧
    (forLoopCondState pre (walk cfg n (.jblock pre) s).2.2).scopeChain
      = scopeOf pre :: s.scopeChain ∧
    (forLoopCondState pre (walk cfg n (.jblock pre) s).2.2).stackHeight
      = (walk cfg n (.jblock pre) s).2.2.stackHeight + numberOfVariables (scopeOf pre) ∧
    (forLoopBodyState cfg n pre cond loc s).scopeChain = scopeOf pre :: s.scopeChain ∧
    (walk cfg n (.jblock body) (forLoopBodyState cfg n pre cond loc s)).2.2.scopeChain
      = scopeOf pre :: s.scopeChain ∧
    (walk cfg (n + 1) (.jstmt (.forLoop pre cond post body loc)) s).2.2.stackHeight
      = s.stackHeight ∧
    (walk cfg (n + 1) (.jstmt (.forLoop pre cond post body loc)) s).2.2.scopeChain
      = s.scopeChain ∧
    (walk cfg (n + 1) (.jstmt (.forLoop pre cond post body loc)) s).2.2.currentForLoop
      = s.currentForLoop := by
  have hbs : (forLoopBodyState cfg n pre cond loc s).scopeChain
      = scopeOf pre :: s.scopeChain := by
    simp only [forLoopBodyState, forLoopCondResult]
    split
    · simp only [expectType_scopeChain, typeAt0_scopeChain]
      rw [(walk_pres cfg n (.jexpectExpr cond)
        (forLoopCondState pre (walk cfg n (.jblock pre) s).2.2)).1]
      simp only [forLoopCondState]
      rw [(walk_pres cfg n (.jblock pre) s).1]
    · rw [(walk_pres cfg n (.jexpectExpr cond)
        (forLoopCondState pre (walk cfg n (.jblock pre) s).2.2)).1]
      simp only [forLoopCondState]
      rw [(walk_pres cfg n (.jblock pre) s).1]
  refine ⟨rfl, ?_, rfl, hbs, ?_, rfl, rfl,
    (walk_pres cfg (n + 1) (.jstmt (.forLoop pre cond post body loc)) s).2⟩
  · simp only [forLoopCondState]
    rw [(walk_pres cfg n (.jblock pre) s).1]
  · rw [(walk_pres cfg n (.jblock body) (forLoopBodyState cfg n pre cond loc s)).1]
    exact hbs

/-- C5 counterexample: a block whose lone statement leaves one surplus stack
item but fails the walk; the stack height at block exit differs from the entry
height, yet no unbalanced-stack diagnostic is recorded, because the check is
gated on the statements having succeeded. -/
theorem C5_counterexample :
    (walk cfg0 10 (.jblock prog5) initialState).1 = false ∧
    (walk cfg0 10 (.jblock prog5) initialState).2.2.stackHeight = 1 ∧
    initialState.stackHeight = 0 ∧
    (walk cfg0 10 (.jblock prog5) initialState).2.2.errors
      = [⟨.typeErr, 22, "Top-level expressions are not supposed to return values (this expression returns 1 value). Use ``pop()`` or assign them."⟩] := by decide

/-- C5 (amended): an accepted block is stack-neutral; when the statements
succeed and the height minus the scope's variable count differs from the entry
height, the handler fails and records exactly one unbalanced-stack declaration
error at the block's location, with the surplus or missing item count in its
message; but when the statement walk itself failed, the handler adds no
diagnostic of its own, whatever the height difference. -/
theorem C5_block_balance (cfg : Config) (n : Nat) (b : Block) (s : St) :
    ((walk cfg (n + 1) (.jblock b) s).1 = true →
      (walk cfg (n + 1) (.jblock b) s).2.2.stackHeight = s.stackHeight) ∧
    (((walk cfg n (.jstmts b.stmts) { s with scopeChain := scopeOf b :: s.scopeChain }).1 = true ∧
        (walk cfg n (.jstmts b.stmts) { s with scopeChain := scopeOf b :: s.scopeChain
          }).2.2.stackHeight - numberOfVariables (scopeOf b) - s.stackHeight ≠ 0) →
      (walk cfg (n + 1) (.jblock b) s).1 = false ∧
      (walk cfg (n + 1) (.jblock b) s).2.2.errors
        = (walk cfg n (.jstmts b.stmts)
            { s with scopeChain := scopeOf b :: s.scopeChain }).2.2.errors
          ++ [⟨.declarationErr, b.loc,
              "Unbalanced stack at the end of a block: "
                ++ (if (walk cfg n (.jstmts b.stmts) { s with scopeChain := scopeOf b :: s.scopeChain }).2.2.stackHeight
                      - numberOfVariables (scopeOf b) - s.stackHeight > 0
                    then toString ((walk cfg n (.jstmts b.stmts) { s with scopeChain := scopeOf b :: s.scopeChain }).2.2.stackHeight
                      - numberOfVariables (scopeOf b) - s.stackHeight) ++ " surplus item(s)."
                    else toString (-((walk cfg n (.jstmts b.stmts) { s with scopeChain := scopeOf b :: s.scopeChain }).2.2.stackHeight
                      - numberOfVariables (scopeOf b) - s.stackHeight)) ++ " missing item(s).")⟩]) ∧
    ((walk cfg n (.jstmts b.stmts) { s with scopeChain := scopeOf b :: s.scopeChain }).1 = false →
      (walk cfg (n + 1) (.jblock b) s).1 = false ∧
      (walk cfg (n + 1) (.jblock b) s).2.2.errors
        = (walk cfg n (.jstmts b.stmts)
            { s with scopeChain := scopeOf b :: s.scopeChain }).2.2.errors) := by
  refine ⟨?_, ?_, ?_⟩
  · simp only [walk]
    split
    · intro h
      exact absurd h (by simp)
    · rename_i hC
      intro h
      exact sub_eq_zero.mp (not_not.mp (fun hne => hC ⟨h, hne⟩))
  · rintro ⟨h1, h2⟩
    simp only [walk]
    split
    · refine ⟨rfl, ?_⟩
      simp [recordHeight, reportError]
    · rename_i hC
      exact absurd ⟨h1, fun he => h2 he⟩ hC
  · intro h
    simp only [walk]
    split
    · rename_i hC
      exact absurd hC.1 (by simp [h])
    · exact ⟨h, rfl⟩

/-- C5 witness: the amended third conjunct applied to the surplus-item block. -/
theorem C5_witness :
    (walk cfg0 10 (.jblock prog5) initialState).1 = false ∧
    (walk cfg0 10 (.jblock prog5) initialState).2.2.errors
      = (walk cfg0 9 (.jstmts prog5.stmts)
          { initialState with scopeChain := scopeOf prog5 :: initialState.scopeChain
            }).2.2.errors :=
  (C5_block_balance cfg0 9 prog5 initialState).2.2 (by decide)

/-- C9 counterexample: an expression statement over an unresolved identifier
changes the stack height and its inner walk fails; no pop-or-assign type
error is recorded at the statement, because the height check is gated on the
inner expression having succeeded. -/
theorem C9_counterexample :
    (walk cfg0 4 (.jexpr (.ident ⟨"y", 31⟩)) initialState).1 = false ∧
    (walk cfg0 5 (.jstmt stmt9) initialState).2.2.stackHeight = 1 ∧
    initialState.stackHeight = 0 ∧
    (walk cfg0 5 (.jstmt stmt9) initialState).2.2.errors
      = [⟨.declarationErr, 31, "Identifier not found."⟩] := by decide

/-- C9 (amended): the unchanged-height check of an expression statement applies
exactly when the inner expression succeeded; with a successful inner walk and a
height drift the handler reports the pop-or-assign type error and fails, and
otherwise it passes the inner result through, recording only the height. -/
theorem C9_expression_statement (cfg : Config) (n : Nat) (e : Expression) (loc : Nat)
    (s : St) :
    (((walk cfg n (.jexpr e) s).1 = true ∧
        (walk cfg n (.jexpr e) s).2.2.stackHeight ≠ s.stackHeight) →
      walk cfg (n + 1) (.jstmt (.exprStmt e loc)) s
        = (false, [], recordHeight (reportError (walk cfg n (.jexpr e) s).2.2 .typeErr loc
            ("Top-level expressions are not supposed to return values (this expression returns "
              ++ toString ((walk cfg n (.jexpr e) s).2.2.stackHeight - s.stackHeight)
              ++ " value"
              ++ (if (walk cfg n (.jexpr e) s).2.2.stackHeight - s.stackHeight = 1
                  then "" else "s")
              ++ "). Use ``pop()`` or assign them.")) loc)) ∧
    (¬((walk cfg n (.jexpr e) s).1 = true ∧
        (walk cfg n (.jexpr e) s).2.2.stackHeight ≠ s.stackHeight) →
      walk cfg (n + 1) (.jstmt (.exprStmt e loc)) s
        = ((walk cfg n (.jexpr e) s).1, [],
            recordHeight (walk cfg n (.jexpr e) s).2.2 loc)) := by
  constructor
  · intro h
    simp only [walk]
    rw [if_pos h]
  · intro h
    simp only [walk]
    rw [if_neg h]

/-- C9 witness: the amended pass-through branch applied to the unresolved
identifier statement. -/
theorem C9_witness :
    walk cfg0 (4 + 1) (.jstmt (.exprStmt (.ident ⟨"y", 31⟩) 32)) initialState
      = ((walk cfg0 4 (.jexpr (.ident ⟨"y", 31⟩)) initialState).1, [],
          recordHeight (walk cfg0 4 (.jexpr (.ident ⟨"y", 31⟩)) initialState).2.2 32) :=
  (C9_expression_statement cfg0 4 (.ident ⟨"y", 31⟩) 32 initialState).2 (by decide)

/-- C1 counterexample: the literal handler visits a thirty-three-byte string
literal, reports the too-long type error and returns false without recording
any stack-height entry for the node. -/
theorem C1_counterexample :
    (analyzeLiteral cfg0 badLit initialState).1 = false ∧
    (analyzeLiteral cfg0 badLit initialState).2.stackHeightInfo = [] ∧
    (analyzeLiteral cfg0 badLit initialState).2.errors
      = [⟨.typeErr, 7, "String literal too long (33 > 32)"⟩] := by decide

/-- C1 (amended): a literal records exactly one stack-height entry when its
handler succeeds and none when it fails; a variable declaration whose
initializer arity mismatches, and an assignment whose value arity mismatches,
add no height entry of their own either. -/
theorem C1_height_recording (cfg : Config) (n : Nat) (l : Literal)
    (vars : List TypedName) (targets : List Identifier) (v value : Expression)
    (loc : Nat) (s : St) (hres : cfg.resolver = none) :
    ((analyzeLiteral cfg l s).1 = true →
      (analyzeLiteral cfg l s).2.stackHeightInfo
        = s.stackHeightInfo ++ [(l.loc, s.stackHeight + 1)]) ∧
    ((analyzeLiteral cfg l s).1 = false →
      (analyzeLiteral cfg l s).2.stackHeightInfo = s.stackHeightInfo) ∧
    ((walk cfg n (.jexpr v) s).2.2.stackHeight - s.stackHeight ≠ (vars.length : Int) →
      (walk cfg (n + 1) (.jstmt (.varDecl vars (some v) loc)) s).2.2.stackHeightInfo
        = (walk cfg n (.jexpr v) s).2.2.stackHeightInfo) ∧
    (1 ≤ targets.length →
      (walk cfg n (.jexpr value) s).2.2.stackHeight - s.stackHeight
          ≠ (targets.length : Int) →
      (walk cfg (n + 1) (.jstmt (.assign targets value loc)) s).2.2.stackHeightInfo
        = (walk cfg n (.jexpr value) s).2.2.stackHeightInfo) := by
  refine ⟨?_, ?_, ?_, ?_⟩
  · simp only [analyzeLiteral]
    split_ifs <;> intro h <;> (try simp at h) <;> (try simp)
  · simp only [analyzeLiteral]
    split_ifs <;> intro h <;> (try simp at h) <;> (try simp)
  · intro hmm
    simp only [walk, hres]
    rw [if_pos hmm]
    simp
  · intro h1 h2
    simp only [walk]
    rw [if_pos h1, if_pos h2]
    simp

/-- C1 witness: the amended variable-declaration conjunct applied to a
two-variable declaration initialized with a single literal. -/
theorem C1_witness :
    (walk cfg0 (4 + 1) (.jstmt (.varDecl [⟨"x", "u", 71⟩, ⟨"y", "u", 72⟩]
        (some (.lit ⟨.number, "1", "u", 73⟩)) 74)) initialState).2.2.stackHeightInfo
      = (walk cfg0 4 (.jexpr (.lit ⟨.number, "1", "u", 73⟩))
          initialState).2.2.stackHeightInfo :=
  (C1_height_recording cfg0 4 badLit [⟨"x", "u", 71⟩, ⟨"y", "u", 72⟩] []
    (.lit ⟨.number, "1", "u", 73⟩) (.lit ⟨.number, "0", "u", 70⟩) 74 initialState
    rfl).2.2.1 (by decide)

/-- C10 counterexample: a call to a name that is neither a builtin, a scope
function nor a legacy instruction fails, and the failure branch's read of the
missing return-type vector is the null dereference modelled by the crash
flag. -/
theorem C10_counterexample :
    (walk cfg0 5 (.jcall ⟨"foo", 41⟩ [] 42) initialState).1 = false ∧
    (walk cfg0 5 (.jcall ⟨"foo", 41⟩ [] 42) initialState).2.2.crashed = true ∧
    initialState.crashed = false := by decide

/-- C10 (amended): with a known return-type vector the failure branch safely
sets the current-expression types to a default-type vector of the return
arity and preserves the crash flag, but with a missing return-type vector and
a failed call the unguarded read crashes. -/
theorem C10_default_type_vector (cfg : Config) (ts : List String) (b : Bool)
    (na loc : Nat) (s : St) :
    (funCallFinish cfg (some ts) b na loc s).2.crashed = s.crashed ∧
    (b = false →
      (funCallFinish cfg (some ts) b na loc s).2.typeOfCurrentExpression
        = List.replicate ts.length cfg.dialect.defaultType) ∧
    (funCallFinish cfg none false na loc s).2.crashed = true := by
  cases b
  · exact ⟨rfl, fun _ => rfl, rfl⟩
  · exact ⟨rfl, fun h => absurd h (by simp), rfl⟩

/-- C10 witness: the failure branch with one declared return type, and the
crash of the missing-vector failure branch. -/
theorem C10_witness :
    (funCallFinish cfg0 (some ["u"]) false 0 5 initialState).2.typeOfCurrentExpression
      = List.replicate (["u"] : List String).length cfg0.dialect.defaultType ∧
    (funCallFinish cfg0 none false 0 5 initialState).2.crashed = true :=
  ⟨(C10_default_type_vector cfg0 ["u"] false 0 5 initialState).2.1 rfl,
   (C10_default_type_vector cfg0 ["u"] false 0 5 initialState).2.2⟩

/-- C2 counterexample: a call to a builtin of parameter types (A, B) with
literal arguments of exactly those types in source order is rejected, with
mismatch errors pairing each parameter against the other argument's type —
the collected argument types are compared in reverse order. -/
theorem C2_counterexample :
    (analyze cfg2 20 prog2).1 = false ∧
    (analyze cfg2 20 prog2).2.errors
      = [⟨.typeErr, 6, "Expected a value of type \"A\" but got \"B"⟩,
         ⟨.typeErr, 7, "Expected a value of type \"B\" but got \"A"⟩] := by decide

/-- C2 (amended): the argument walk visits arguments right to left and
collects their types in reverse source order, and the pairwise parameter
check then compares the declared parameter types positionally against that
reversed list, succeeding exactly when the lists agree position by
position. -/
theorem C2_argument_type_collection (cfg : Config) :
    (∀ (n : Nat) (lits : List Literal) (fl : Nat) (s : St),
        lits.length + 2 ≤ n →
        (∀ l ∈ lits, (analyzeLiteral cfg l initialState).1 = true) →
        (walk cfg n (.jargs fl false (lits.map Expression.lit)) s).1 = true ∧
        (walk cfg n (.jargs fl false (lits.map Expression.lit)) s).2.1
          = (lits.map (fun l => l.type)).reverse) ∧
    (∀ (ps ats : List String) (ls : List Nat) (s : St),
        ps.length = ats.length → ps.length ≤ ls.length →
        ((checkParamTypes ps ats ls s).1 = true ↔ ps = ats)) :=
  ⟨jargs_literals cfg, checkParamTypes_true_iff⟩

/-- C2 witness: the type list collected for literal arguments of types A then
B is the reversed list, and the parameter check against the reversed list
fails for the matching source-order signature. -/
theorem C2_witness :
    (walk cfg2 4 (.jargs 8 false
        (([⟨.number, "1", "A", 6⟩, ⟨.number, "2", "B", 7⟩] : List Literal).map
          Expression.lit)) initialState).2.1
      = (([⟨.number, "1", "A", 6⟩, ⟨.number, "2", "B", 7⟩] : List Literal).map
          (fun l => l.type)).reverse ∧
    ¬(checkParamTypes ["A", "B"] ["B", "A"] [6, 7] initialState).1 = true :=
  ⟨((C2_argument_type_collection cfg2).1 4 [⟨.number, "1", "A", 6⟩, ⟨.number, "2", "B", 7⟩]
      8 initialState (by decide) (by decide)).2,
   fun h => by
     have h2 := ((C2_argument_type_collection cfg2).2 ["A", "B"] ["B", "A"] [6, 7]
       initialState (by decide) (by decide)).mp h
     simp at h2⟩

/-- C6: a successfully analyzed non-default case literal not yet seen has its
numeric value appended to the seen-cases set handed to the remaining cases; a
case whose literal value is already in the seen set makes the case walk fail
and records the duplicate-case declaration error at that later case; and
after a whole switch statement the stack height equals the pre-switch
baseline. -/
theorem C6_switch_seen_cases (cfg : Config) (vt : String) :
    (∀ (n : Nat) (c : SwitchCase) (rest : List SwitchCase) (seen : List Nat) (s : St)
        (l : Literal),
        c.value = some l → (analyzeLiteral cfg l s).1 = true → valueOfLiteral l ∉ seen →
        ∃ t : St, walk cfg (n + 1) (.jcases vt (c :: rest) seen) s
          = ((walk cfg n (.jblock c.body) t).1
              && (walk cfg n (.jcases vt rest (seen ++ [valueOfLiteral l]))
                  (walk cfg n (.jblock c.body) t).2.2).1, [],
             (walk cfg n (.jcases vt rest (seen ++ [valueOfLiteral l]))
               (walk cfg n (.jblock c.body) t).2.2).2.2)) ∧
    (∀ (l' : Literal) (c' : SwitchCase),
        c'.value = some l' → (analyzeLiteral cfg l' initialState).1 = true →
        ∀ (m : Nat) (cs₂ cs₃ : List SwitchCase) (seen : List Nat) (t : St),
          valueOfLiteral l' ∈ seen → cs₂.length + 1 ≤ m →
          (walk cfg m (.jcases vt (cs₂ ++ c' :: cs₃) seen) t).1 = false ∧
          (⟨ErrKind.declarationErr, c'.loc, "Duplicate case defined."⟩ : Diag)
            ∈ (walk cfg m (.jcases vt (cs₂ ++ c' :: cs₃) seen) t).2.2.errors) ∧
    (∀ (n : Nat) (sc : Expression) (cs : List SwitchCase) (loc : Nat) (s : St),
        (walk cfg (n + 1) (.jstmt (.switchStmt sc cs loc)) s).2.2.stackHeight
          = s.stackHeight) := by
  refine ⟨?_, fun l' c' hcv hs => jcases_dup cfg vt l' c' hcv hs,
    fun n sc cs loc s => rfl⟩
  intro n c rest seen s l hc hsucc hno
  simp only [walk, hc]
  rw [if_neg (fun hcon => hno hcon.2), if_pos hsucc]
  exact ⟨_, rfl⟩

/-- C6 witness: the duplicate-case conjunct applied to a case list holding one
case of value one with that value already seen. -/
theorem C6_witness :
    (walk cfg0 1 (.jcases "u"
        [SwitchCase.mk (some ⟨.number, "1", "u", 55⟩) (Block.mk [] 56) 57] [1])
        initialState).1 = false ∧
    (⟨ErrKind.declarationErr, 57, "Duplicate case defined."⟩ : Diag)
      ∈ (walk cfg0 1 (.jcases "u"
          [SwitchCase.mk (some ⟨.number, "1", "u", 55⟩) (Block.mk [] 56) 57] [1])
          initialState).2.2.errors :=
  (C6_switch_seen_cases cfg0 "u").2.1 ⟨.number, "1", "u", 55⟩
    (SwitchCase.mk (some ⟨.number, "1", "u", 55⟩) (Block.mk [] 56) 57) rfl (by decide)
    1 [] [] [1] initialState (by decide) (by decide)

/-- C8: a callee name that is neither a builtin nor in scope but names a jump
instruction in the reference EVM dialect draws the low-level-feature syntax
error for every target version, the legacy-instruction check returns true,
and the generic function-not-found error is suppressed. -/
theorem C8_jump_syntax_error (cfg : Config) (fname : Identifier) (i : Instruction) (s : St)
    (hb : cfg.dialect.builtin fname.name = none)
    (hl : lookupGo false s.scopeChain fname.name = none)
    (hi : cfg.refInstruction fname.name = some i)
    (hj : i = .JUMP ∨ i = .JUMPI ∨ i = .JUMPDEST) :
    (warnOnInstructions cfg i fname.loc s).1 = true ∧
    (warnOnInstructions cfg i fname.loc s).2.errors
      = s.errors ++ [⟨.syntaxErr, fname.loc, jumpDisallowedMsg⟩] ∧
    resolveCallee cfg fname s
      = (none, false, false, (warnOnInstructions cfg i fname.loc s).2) := by
  have h1 : (warnOnInstructions cfg i fname.loc s).1 = true := by
    rcases hj with h | h | h <;> subst h <;> simp [warnOnInstructions]
  refine ⟨h1, ?_, ?_⟩
  · rcases hj with h | h | h <;> subst h <;>
      (simp [warnOnInstructions, reportError]; split_ifs <;> simp [setCrashed])
  · simp only [resolveCallee, hb, hl, warnOnInstructionsByName, hi]
    rw [if_pos h1]

/-- C8 witness: the suppression of the function-not-found error for a call to
jump under the reference EVM dialect. -/
theorem C8_witness :
    resolveCallee cfg8 ⟨"jump", 61⟩ initialState
      = (none, false, false, (warnOnInstructions cfg8 .JUMP 61 initialState).2) :=
  (C8_jump_syntax_error cfg8 ⟨"jump", 61⟩ .JUMP initialState rfl rfl rfl (Or.inl rfl)).2.2
